import Mathlib

/-!
Shallow embedding of the tinygocha battle-simulation core
(`internal/game`: vector math, Unit, AIBehavior, Group, Army, BattleManager),
with Go `float64` idealised as `ℝ` and Go `int` as `ℤ`.
Pointers to units are modelled as unit ids into a store `Nat → Unit`.
-/

namespace Tinygocha

noncomputable section

/-- 2D vector, from `internal/math` Vector2D. -/
structure Vector2D where
  X : ℝ
  Y : ℝ

def Vector2D.Add (v other : Vector2D) : Vector2D :=
  ⟨v.X + other.X, v.Y + other.Y⟩

def Vector2D.Sub (v other : Vector2D) : Vector2D :=
  ⟨v.X - other.X, v.Y - other.Y⟩

def Vector2D.Mul (v : Vector2D) (scalar : ℝ) : Vector2D :=
  ⟨v.X * scalar, v.Y * scalar⟩

/-- `Distance`: sqrt(dx*dx + dy*dy). -/
def Vector2D.Distance (v other : Vector2D) : ℝ :=
  Real.sqrt ((v.X - other.X) * (v.X - other.X) + (v.Y - other.Y) * (v.Y - other.Y))

def Vector2D.Length (v : Vector2D) : ℝ :=
  Real.sqrt (v.X * v.X + v.Y * v.Y)

/-- `Normalize`: returns the zero vector when the length is zero. -/
def Vector2D.Normalize (v : Vector2D) : Vector2D :=
  if v.Length = 0 then ⟨0, 0⟩ else ⟨v.X / v.Length, v.Y / v.Length⟩

/-- AI actions, from `ai.go`. -/
inductive AIAction where
  | Idle
  | Approach
  | Retreat
  | Attack
  | Hold

/-- AI behavior state, from `ai.go`.  `TargetEnemy` is a unit pointer in Go,
modelled as an optional unit id. -/
structure AIBehavior where
  TargetEnemy : Option Nat
  PreferredRange : ℝ
  AggressionLevel : ℝ
  LastDecisionTime : ℝ
  DecisionCooldown : ℝ
  CurrentAction : AIAction
  ActionStartTime : ℝ
  ActionDuration : ℝ

/-- `NewAIBehavior`: type-dependent tuning. -/
def NewAIBehavior (unitType : String) : AIBehavior :=
  let base : AIBehavior :=
    { TargetEnemy := none, PreferredRange := 0, AggressionLevel := 0,
      LastDecisionTime := 0, DecisionCooldown := 1/10, CurrentAction := .Idle,
      ActionStartTime := 0, ActionDuration := 0 }
  if unitType = "infantry" then { base with PreferredRange := 15, AggressionLevel := 7/10 }
  else if unitType = "archer" then { base with PreferredRange := 600, AggressionLevel := 1/2 }
  else if unitType = "mage" then { base with PreferredRange := 480, AggressionLevel := 2/5 }
  else if unitType = "heavy_infantry" then
    { base with PreferredRange := 20, AggressionLevel := 4/5 }
  else if unitType = "cavalry" then { base with PreferredRange := 25, AggressionLevel := 9/10 }
  else { base with PreferredRange := 15, AggressionLevel := 3/5 }

/-- A single unit, from `unit.go` (animation state omitted: opaque to the core). -/
structure Unit where
  ID : Nat
  type : String
  Name : String
  HP : ℤ
  MaxHP : ℤ
  AttackPower : ℤ
  Defense : ℤ
  Speed : ℝ
  Range : ℝ
  MagicPower : ℤ
  Size : ℝ
  Position : Vector2D
  Target : Vector2D
  IsLeader : Bool
  IsAlive : Bool
  IsRetreating : Bool
  GroupID : Nat
  ArmyID : Nat
  LastAttackTime : ℝ
  AttackCooldown : ℝ
  AI : Option AIBehavior

/-- Unit configuration record, from `config.go`. -/
structure UnitTypeConfig where
  Name : String
  HP : ℤ
  Attack : ℤ
  Defense : ℤ
  Speed : ℝ
  Range : ℝ
  MagicPower : ℤ
  Size : ℝ

/-- `NewUnit`, from `unit.go`. -/
def NewUnit (id : Nat) (unitType : String) (config : UnitTypeConfig)
    (isLeader : Bool) (groupID armyID : Nat) : Unit :=
  { ID := id, type := unitType, Name := config.Name,
    HP := config.HP, MaxHP := config.HP,
    AttackPower := config.Attack, Defense := config.Defense,
    Speed := config.Speed, Range := config.Range,
    MagicPower := config.MagicPower, Size := config.Size,
    Position := ⟨0, 0⟩, Target := ⟨0, 0⟩,
    IsLeader := isLeader, IsAlive := true, IsRetreating := false,
    GroupID := groupID, ArmyID := armyID,
    LastAttackTime := 0, AttackCooldown := 1,
    AI := some (NewAIBehavior unitType) }

/-- `GetCollisionRadius`: base radius 3.0 times the size multiplier. -/
def Unit.GetCollisionRadius (u : Unit) : ℝ := 3 * u.Size

/-- `GetSightRange`: fixed 5000. -/
def Unit.GetSightRange (_u : Unit) : ℝ := 5000

/-- `CanAttack`: alive and attack cooldown elapsed. -/
def Unit.CanAttack (u : Unit) : Bool :=
  u.IsAlive && decide (u.LastAttackTime ≤ 0)

/-- `MoveTo`: set the movement target. -/
def Unit.MoveTo (u : Unit) (target : Vector2D) : Unit :=
  { u with Target := target }

/-- `TakeDamage`: subtract, clamp at 0, latch death. -/
def Unit.TakeDamage (u : Unit) (damage : ℤ) : Unit :=
  if u.IsAlive = false then u
  else
    let hp := u.HP - damage
    if hp ≤ 0 then { u with HP := 0, IsAlive := false }
    else { u with HP := hp }

/-- `StartRetreating`: one-way flag plus target override. -/
def Unit.StartRetreating (u : Unit) (exitPoint : Vector2D) : Unit :=
  { u with IsRetreating := true, Target := exitPoint }

/-- `GetHealthPercentage`: HP / MaxHP, 0 when MaxHP is 0. -/
def Unit.GetHealthPercentage (u : Unit) : ℝ :=
  if u.MaxHP = 0 then 0 else (u.HP : ℝ) / (u.MaxHP : ℝ)

/-- `Attack`, from `unit.go`: returns the damage dealt together with the updated
attacker and target (Go mutates both through pointers). -/
def Unit.Attack (u target : Unit) : ℤ × Unit × Unit :=
  if u.CanAttack = false ∨ target.IsAlive = false then (0, u, target)
  else
    let distance := u.Position.Distance target.Position
    let effectiveRange := u.Range + u.GetCollisionRadius + target.GetCollisionRadius
    if distance > effectiveRange then (0, u, target)
    else
      let baseDamage := u.AttackPower + (if u.type = "mage" then u.MagicPower else 0)
      let damage := if baseDamage - target.Defense < 1 then 1 else baseDamage - target.Defense
      (damage, { u with LastAttackTime := u.AttackCooldown }, target.TakeDamage damage)

/-- `IsCollidingWith`: both alive and centres closer than combined radii. -/
def Unit.IsCollidingWith (u other : Unit) : Bool :=
  if u.IsAlive = false ∨ other.IsAlive = false then false
  else decide (u.Position.Distance other.Position <
    u.GetCollisionRadius + other.GetCollisionRadius)

/-- `ResolveCollision`: push both units apart by half the overlap each, along the
connecting line; no-op when either is dead, when not overlapping, or when the
centres coincide.  Returns the updated pair. -/
def Unit.ResolveCollision (u other : Unit) : Unit × Unit :=
  if u.IsAlive = false ∨ other.IsAlive = false then (u, other)
  else
    let distance := u.Position.Distance other.Position
    let combinedRadius := u.GetCollisionRadius + other.GetCollisionRadius
    if distance < combinedRadius ∧ 0 < distance then
      let overlap := combinedRadius - distance
      let direction := (other.Position.Sub u.Position).Normalize
      let pushDistance := overlap * (1/2)
      ({ u with Position := u.Position.Sub (direction.Mul pushDistance) },
       { other with Position := other.Position.Add (direction.Mul pushDistance) })
    else (u, other)

/-- `Unit.Update`, from `unit.go` (animation branches omitted): tick down the
attack cooldown, then move toward the target when farther than the collision
radius. -/
def Unit.Update (u : Unit) (deltaTime : ℝ) : Unit :=
  if u.IsAlive = false then u
  else
    let u1 :=
      if 0 < u.LastAttackTime then
        let lat := u.LastAttackTime - deltaTime
        { u with LastAttackTime := if lat < 0 then 0 else lat }
      else u
    if u1.Position.Distance u1.Target > u1.GetCollisionRadius then
      let direction := (u1.Target.Sub u1.Position).Normalize
      let movement := direction.Mul (u1.Speed * deltaTime)
      { u1 with Position := u1.Position.Add movement }
    else u1

/-- Unit store: Go unit pointers are modelled as ids into this store. -/
abbrev Store := Nat → Unit

/-- Write one unit back into the store. -/
def setU (s : Store) (i : Nat) (u : Unit) : Store :=
  fun j => if j = i then u else s j

/-- `calculateTargetScore`, from `ai.go`. -/
def calculateTargetScore (unit enemy : Unit) (distance : ℝ) : ℝ :=
  let score := (1000 : ℝ)
  let score := score - distance * (5/100)
  let score := score + (1 - enemy.GetHealthPercentage) * 30
  let score := score + (if enemy.IsLeader = true then 50 else 0)
  let score := score + (if distance ≤ unit.Range then 100 else 0)
  score + (if enemy.type = "mage" then 20
           else if enemy.type = "archer" then 15
           else if enemy.type = "infantry" then 10 else 0)

/-- The scan inside `selectTarget`: keep the strictly best-scoring candidate. -/
def selectTargetLoop (s : Store) (unit : Unit) :
    List Nat → Option Nat → ℝ → Option Nat
  | [], best, _ => best
  | e :: rest, best, bestScore =>
    let enemy := s e
    if enemy.IsAlive = false ∨ enemy.IsRetreating = true then
      selectTargetLoop s unit rest best bestScore
    else
      let distance := unit.Position.Distance enemy.Position
      if distance > unit.GetSightRange then
        selectTargetLoop s unit rest best bestScore
      else
        let score := calculateTargetScore unit enemy distance
        if score > bestScore then selectTargetLoop s unit rest (some e) score
        else selectTargetLoop s unit rest best bestScore

/-- `selectTarget`: best score wins, initial best score −1. -/
def selectTarget (s : Store) (unit : Unit) (enemies : List Nat) : Option Nat :=
  selectTargetLoop s unit enemies none (-1)

/-- `isRangedUnit`. -/
def isRangedUnit (unit : Unit) : Bool :=
  unit.type = "archer" || unit.type = "mage"

/-- `decideAction`, from `ai.go`: distance-based action choice using the
effective distance (collision radii subtracted). -/
def decideAction (ai : AIBehavior) (unit target : Unit) (distance : ℝ) : AIAction :=
  let effectiveDistance := distance - unit.GetCollisionRadius - target.GetCollisionRadius
  if effectiveDistance ≤ unit.Range ∧ unit.CanAttack = true then .Attack
  else if effectiveDistance > ai.PreferredRange * (12/10) then .Approach
  else if effectiveDistance < ai.PreferredRange * (8/10) ∧ isRangedUnit unit = true then .Retreat
  else if effectiveDistance ≤ unit.Range then .Hold
  else .Approach

/-- `moveTowardsTarget`, from `ai.go`. -/
def moveTowardsTarget (s : Store) (ai : AIBehavior) (unit : Unit) (intensity : ℝ) : Unit :=
  match ai.TargetEnemy with
  | none => unit
  | some te =>
    let enemy := s te
    let direction := (enemy.Position.Sub unit.Position).Normalize
    let currentDistance := unit.Position.Distance enemy.Position
    let collisionBuffer := unit.GetCollisionRadius + enemy.GetCollisionRadius
    let targetDistance := ai.PreferredRange * (9/10) + collisionBuffer
    if currentDistance > targetDistance then
      let moveDistance := min (currentDistance - targetDistance) 50
      unit.MoveTo (unit.Position.Add (direction.Mul (moveDistance * intensity)))
    else
      unit.MoveTo (unit.Position.Add (direction.Mul (20 * intensity)))

/-- `moveAwayFromTarget`, from `ai.go`, with the on-map clamp. -/
def moveAwayFromTarget (s : Store) (ai : AIBehavior) (unit : Unit) (intensity : ℝ) : Unit :=
  match ai.TargetEnemy with
  | none => unit
  | some te =>
    let enemy := s te
    let direction := (unit.Position.Sub enemy.Position).Normalize
    let currentDistance := unit.Position.Distance enemy.Position
    let collisionBuffer := unit.GetCollisionRadius + enemy.GetCollisionRadius
    let targetDistance := ai.PreferredRange * (11/10) + collisionBuffer
    let moveDistance := targetDistance - currentDistance
    if 0 < moveDistance then
      let tp := unit.Position.Add (direction.Mul (moveDistance * intensity))
      unit.MoveTo ⟨max 50 (min 974 tp.X), max 100 (min 700 tp.Y)⟩
    else unit

/-- `executeAction`, from `ai.go`. -/
def executeAction (s : Store) (ai : AIBehavior) (unit : Unit) : Unit :=
  match ai.CurrentAction with
  | .Approach => moveTowardsTarget s ai unit 1
  | .Retreat => moveAwayFromTarget s ai unit 1
  | .Attack => unit
  | .Hold => { unit with Target := unit.Position }
  | .Idle => { unit with Target := unit.Position }

/-- `AIBehavior.Update`, from `ai.go`: the decision cycle (gated), target
selection, action decision and action execution.  Returns the updated unit
(with its updated AI state). -/
def AIBehavior.Update (s : Store) (ai : AIBehavior) (unit : Unit)
    (enemies : List Nat) (deltaTime : ℝ) : Unit :=
  if unit.IsAlive = false ∨ unit.IsRetreating = true then unit
  else
    let ai1 := { ai with LastDecisionTime := ai.LastDecisionTime + deltaTime }
    if ai1.LastDecisionTime < ai1.DecisionCooldown then { unit with AI := some ai1 }
    else
      let ai2 := { ai1 with
                   LastDecisionTime := 0
                   TargetEnemy := selectTarget s unit enemies }
      match ai2.TargetEnemy with
      | none => { unit with AI := some { ai2 with CurrentAction := .Idle } }
      | some te =>
        if (s te).IsAlive = false then
          { unit with AI := some { ai2 with CurrentAction := .Idle } }
        else
          let distance := unit.Position.Distance (s te).Position
          let ai3 := { ai2 with CurrentAction := decideAction ai2 unit (s te) distance }
          executeAction s ai3 { unit with AI := some ai3 }

/-- The per-army loop body of `BattleManager.updateAI` (skips units with a
nil AI pointer). -/
def updateAIList (s : Store) (ids enemies : List Nat) (dt : ℝ) : Store :=
  ids.foldl (fun acc i =>
    match (acc i).AI with
    | none => acc
    | some ai => setU acc i (AIBehavior.Update acc ai (acc i) enemies dt)) s

/-- Formation types, from `group.go`. -/
inductive FormationType where
  | CircleFormation

/-- Formation parameters, from `group.go`. -/
structure Formation where
  type : FormationType
  Radius : ℝ
  Spacing : ℝ

/-- A group: leader and members are unit ids (Go pointers). -/
structure Group where
  ID : Nat
  Leader : Option Nat
  Members : List Nat
  Formation : Formation
  ArmyID : Nat
  targetPosition : Vector2D

/-- `Group.getAliveMembers`: alive and not retreating. -/
def Group.getAliveMembers (s : Store) (g : Group) : List Nat :=
  g.Members.filter (fun m => (s m).IsAlive && !(s m).IsRetreating)

/-- `Group.updateCircleFormation`: place each alive, non-retreating member on a
circle of the formation radius around the group anchor, at equal angular
steps in member-index order. -/
def Group.updateCircleFormation (s : Store) (g : Group) : Store :=
  let aliveMembers := Group.getAliveMembers s g
  if aliveMembers = [] then s
  else
    let angleStep := 2 * Real.pi / (aliveMembers.length : ℝ)
    aliveMembers.enum.foldl (fun acc p =>
      if (acc p.2).IsRetreating = true then acc
      else
        let angle := (p.1 : ℝ) * angleStep
        let offsetX := Real.cos angle * g.Formation.Radius
        let offsetY := Real.sin angle * g.Formation.Radius
        let formationPos := g.targetPosition.Add ⟨offsetX, offsetY⟩
        setU acc p.2 ((acc p.2).MoveTo formationPos)) s

/-- `Group.updateFormation`. -/
def Group.updateFormation (s : Store) (g : Group) : Store :=
  match g.Leader with
  | none => s
  | some lid =>
    if (s lid).IsAlive = false then s
    else
      match g.Formation.type with
      | .CircleFormation => Group.updateCircleFormation s g

/-- `Group.handleLeaderDeath`: order every alive, non-retreating member to
retreat to the map edge for its army side. -/
def Group.handleLeaderDeath (s : Store) (g : Group) : Store :=
  g.Members.foldl (fun acc m =>
    let member := acc m
    if member.IsAlive = true ∧ member.IsRetreating = false then
      let exitX : ℝ := if member.ArmyID = 1 then 1124 else -100
      setU acc m (member.StartRetreating ⟨exitX, member.Position.Y⟩)
    else acc) s

/-- `Group.Update`, from `group.go`: handle a dead leader, otherwise update the
leader, recompute the anchor, write the formation, then update the members. -/
def Group.Update (s : Store) (g : Group) (dt : ℝ) : Store × Group :=
  match g.Leader with
  | none => (Group.handleLeaderDeath s g, g)
  | some lid =>
    if (s lid).IsAlive = false then (Group.handleLeaderDeath s g, g)
    else
      let s1 := setU s lid ((s lid).Update dt)
      let leader := s1 lid
      let tp := if leader.Position.Distance leader.Target > 5 then leader.Target
                else leader.Position
      let g1 := { g with targetPosition := tp }
      let s2 := Group.updateFormation s1 g1
      let s3 := g1.Members.foldl (fun acc m =>
        if (acc m).IsAlive = true then setU acc m ((acc m).Update dt) else acc) s2
      (s3, g1)

/-- `Group.GetAllUnits`: leader (when present) then the members. -/
def Group.GetAllUnits (g : Group) : List Nat :=
  (match g.Leader with | none => [] | some l => [l]) ++ g.Members

/-- `Group.GetAliveCount` (retreating units still count). -/
def Group.GetAliveCount (s : Store) (g : Group) : Nat :=
  (match g.Leader with
   | none => 0
   | some l => if (s l).IsAlive = true then 1 else 0)
  + (g.Members.filter (fun m => (s m).IsAlive = true)).length

/-- `Group.IsDefeated`. -/
def Group.IsDefeated (s : Store) (g : Group) : Bool :=
  Group.GetAliveCount s g = 0

/-- An army, from `config.go`. -/
structure Army where
  ID : Nat
  Name : String
  Groups : List Group
  Side : Nat

/-- `Army.Update`: update every group in order, threading the store. -/
def Army.Update (s : Store) (a : Army) (dt : ℝ) : Store × Army :=
  let r := a.Groups.foldl (fun (acc : Store × List Group) g =>
    let r' := Group.Update acc.1 g dt
    (r'.1, acc.2 ++ [r'.2])) (s, [])
  (r.1, { a with Groups := r.2 })

/-- `Army.GetAllUnits`: concatenation over groups. -/
def Army.GetAllUnits (a : Army) : List Nat :=
  a.Groups.foldl (fun acc g => acc ++ Group.GetAllUnits g) []

/-- `Army.GetAliveUnits`: alive AND not retreating. -/
def Army.GetAliveUnits (s : Store) (a : Army) : List Nat :=
  (Army.GetAllUnits a).filter (fun i => (s i).IsAlive && !(s i).IsRetreating)

/-- `Army.GetTotalHealth`: mean of all units' health percentage (0 on empty). -/
def Army.GetTotalHealth (s : Store) (a : Army) : ℝ :=
  let units := Army.GetAllUnits a
  if units = [] then 0
  else (units.foldl (fun acc i => acc + (s i).GetHealthPercentage) 0) / (units.length : ℝ)

/-- `Army.IsDefeated`: every group defeated. -/
def Army.IsDefeated (s : Store) (a : Army) : Bool :=
  a.Groups.all (fun g => Group.IsDefeated s g)

/-- The battle manager (stage/terrain data and the id counter are not needed
by the per-tick pipeline and are omitted). -/
structure BattleManager where
  ArmyA : Army
  ArmyB : Army
  BattleTime : ℝ
  TimeLimit : ℝ
  IsActive : Bool
  Winner : ℤ
  store : Store

/-- `BattleManager.updateAI`: alive-unit lists are snapshotted up front, army A
first, then army B. -/
def updateAI (s : Store) (aA aB : Army) (dt : ℝ) : Store :=
  let unitsA := Army.GetAliveUnits s aA
  let unitsB := Army.GetAliveUnits s aB
  let s1 := updateAIList s unitsA unitsB dt
  updateAIList s1 unitsB unitsA dt

/-- One collision check/resolution between the units at ids `i` and `j`. -/
def collidePair (s : Store) (i j : Nat) : Store :=
  if (s i).IsCollidingWith (s j) = true then
    let p := (s i).ResolveCollision (s j)
    setU (setU s i p.1) j p.2
  else s

/-- Index pairs `(i, j)` with `i` before `j`, in the nested-loop order of
`handleCollisions`. -/
def pairsAux : List Nat → List (Nat × Nat)
  | [] => []
  | x :: xs => (xs.map (fun y => (x, y))) ++ pairsAux xs

/-- `BattleManager.handleCollisions`. -/
def handleCollisions (s : Store) (aA aB : Army) : Store :=
  let allUnits := Army.GetAliveUnits s aA ++ Army.GetAliveUnits s aB
  (pairsAux allUnits).foldl (fun acc p => collidePair acc p.1 p.2) s

/-- The loop body of the target search in `processCombat`: keep an enemy that
is within the raw `Range` and strictly closer than the best so far. -/
def combatScan (s : Store) (u : Unit) (acc : Option Nat × ℝ) (e : Nat) : Option Nat × ℝ :=
  let distance := u.Position.Distance (s e).Position
  if distance ≤ u.Range ∧ distance < acc.2 then (some e, distance) else acc

/-- The target-finding loop of `processCombat`: closest enemy within the raw
`Range`, scanning in list order; `minDistance` starts at `Range + 1`. -/
def findCombatTarget (s : Store) (u : Unit) (enemies : List Nat) : Option Nat :=
  (enemies.foldl (combatScan s u) (none, u.Range + 1)).1

/-- Perform `(s i).Attack (s t)` through the store. -/
def combatAttack (s : Store) (i t : Nat) : Store :=
  let r := (s i).Attack (s t)
  setU (setU s i r.2.1) t r.2.2

/-- One side's pass of `processCombat`. -/
def combatPass (s : Store) (attackers enemies : List Nat) : Store :=
  attackers.foldl (fun acc i =>
    if (acc i).CanAttack = false then acc
    else
      match findCombatTarget acc (acc i) enemies with
      | none => acc
      | some t => combatAttack acc i t) s

/-- `BattleManager.processCombat`: army A attacks first, then army B; the
alive-unit lists are snapshotted up front. -/
def processCombat (s : Store) (aA aB : Army) : Store :=
  let unitsA := Army.GetAliveUnits s aA
  let unitsB := Army.GetAliveUnits s aB
  let s1 := combatPass s unitsA unitsB
  combatPass s1 unitsB unitsA

/-- `BattleManager.checkWinConditions`. -/
def checkWinConditions (bm : BattleManager) : BattleManager :=
  if bm.BattleTime ≥ bm.TimeLimit then
    let healthA := Army.GetTotalHealth bm.store bm.ArmyA
    let healthB := Army.GetTotalHealth bm.store bm.ArmyB
    { bm with
      IsActive := false
      Winner := if healthA > healthB then 0 else if healthB > healthA then 1 else 2 }
  else
    if Army.IsDefeated bm.store bm.ArmyA = true ∧ Army.IsDefeated bm.store bm.ArmyB = true then
      { bm with IsActive := false, Winner := 2 }
    else if Army.IsDefeated bm.store bm.ArmyA = true then
      { bm with IsActive := false, Winner := 1 }
    else if Army.IsDefeated bm.store bm.ArmyB = true then
      { bm with IsActive := false, Winner := 0 }
    else bm

/-- The tick pipeline up to (excluding) the win-condition check. -/
def BattleManager.preWin (bm : BattleManager) (dt : ℝ) : BattleManager :=
  let bm1 := { bm with BattleTime := bm.BattleTime + dt }
  let rA := Army.Update bm1.store bm1.ArmyA dt
  let rB := Army.Update rA.1 bm1.ArmyB dt
  let bm2 := { bm1 with store := rB.1, ArmyA := rA.2, ArmyB := rB.2 }
  let s3 := updateAI bm2.store bm2.ArmyA bm2.ArmyB dt
  let s4 := handleCollisions s3 bm2.ArmyA bm2.ArmyB
  let s5 := processCombat s4 bm2.ArmyA bm2.ArmyB
  { bm2 with store := s5 }

/-- `BattleManager.Update`: no-op when inactive; otherwise advance the clock,
update both armies (movement + formation), run the AI pass, resolve collisions,
resolve combat, and check win conditions — in that order. -/
def BattleManager.Update (bm : BattleManager) (dt : ℝ) : BattleManager :=
  if bm.IsActive = false then bm
  else checkWinConditions (BattleManager.preWin bm dt)

/-! ## Helper lemmas about the vector operations -/

theorem Vector2D.distance_same_y (a b y : ℝ) (h : a ≤ b) :
    Vector2D.Distance ⟨a, y⟩ ⟨b, y⟩ = b - a := by
  unfold Vector2D.Distance
  have hq : (a - b) * (a - b) + (y - y) * (y - y) = (b - a) ^ 2 := by ring
  rw [hq, Real.sqrt_sq (by linarith)]

theorem Vector2D.distance_self (v : Vector2D) : Vector2D.Distance v v = 0 := by
  unfold Vector2D.Distance
  simp

theorem Vector2D.distance_nonneg (v w : Vector2D) : 0 ≤ Vector2D.Distance v w :=
  Real.sqrt_nonneg _

/-- A unit used as the base of concrete test configurations. -/
def baseUnit : Unit :=
  { ID := 0, type := "infantry", Name := "u", HP := 100, MaxHP := 100,
    AttackPower := 15, Defense := 10, Speed := 0, Range := 15, MagicPower := 0,
    Size := 1, Position := ⟨0, 0⟩, Target := ⟨0, 0⟩, IsLeader := false,
    IsAlive := true, IsRetreating := false, GroupID := 0, ArmyID := 0,
    LastAttackTime := 0, AttackCooldown := 1, AI := none }

/-! ## C5: `Unit.Attack` semantics -/

/-- C5.  `Unit.Attack` returns 0 and changes no state of attacker or target
whenever the attacker cannot attack, the target is dead, or the distance
exceeds `Range + collisionRadius(attacker) + collisionRadius(target)`;
otherwise it deals exactly `max 1 (attackPower + magic-bonus − defense)`
damage (never less than 1), applies it to the target, resets the attacker's
cooldown to its cooldown duration, and returns the damage dealt. -/
theorem claim_C5_attack (u t : Unit) :
    (u.CanAttack = false ∨ t.IsAlive = false ∨
        u.Position.Distance t.Position >
          u.Range + u.GetCollisionRadius + t.GetCollisionRadius →
      u.Attack t = (0, u, t)) ∧
    (u.CanAttack = true → t.IsAlive = true →
      u.Position.Distance t.Position ≤
          u.Range + u.GetCollisionRadius + t.GetCollisionRadius →
      u.Attack t =
        (max 1 (u.AttackPower + (if u.type = "mage" then u.MagicPower else 0) - t.Defense),
         { u with LastAttackTime := u.AttackCooldown },
         t.TakeDamage
           (max 1 (u.AttackPower + (if u.type = "mage" then u.MagicPower else 0) - t.Defense))) ∧
      1 ≤ (u.Attack t).1) := by
  have hmax : ∀ x : ℤ, (if x < 1 then (1 : ℤ) else x) = max 1 x := by
    intro x
    by_cases hx : x < 1
    · rw [if_pos hx, max_eq_left (by omega)]
    · rw [if_neg hx, max_eq_right (by omega)]
  constructor
  · intro h
    unfold Unit.Attack
    rcases h with h | h | h
    · rw [if_pos (Or.inl h)]
    · rw [if_pos (Or.inr h)]
    · by_cases h1 : u.CanAttack = false ∨ t.IsAlive = false
      · rw [if_pos h1]
      · rw [if_neg h1]
        simp only []
        rw [if_pos h]
  · intro hc ha hd
    have h1 : ¬(u.CanAttack = false ∨ t.IsAlive = false) := by
      rintro (h | h) <;> simp_all
    have h2 : ¬(u.Position.Distance t.Position >
        u.Range + u.GetCollisionRadius + t.GetCollisionRadius) := not_lt.mpr hd
    constructor
    · unfold Unit.Attack
      rw [if_neg h1]
      simp only []
      rw [if_neg h2, hmax]
    · unfold Unit.Attack
      rw [if_neg h1]
      simp only []
      rw [if_neg h2]
      by_cases hx : u.AttackPower + (if u.type = "mage" then u.MagicPower else 0) - t.Defense < 1
      · rw [if_pos hx]
      · rw [if_neg hx]; omega

/-- Concrete attacker for the C5 witness. -/
def c5Attacker : Unit := baseUnit

/-- Concrete target for the C5 witness, 10 units to the right. -/
def c5Target : Unit := { baseUnit with ID := 1, ArmyID := 1, Position := ⟨10, 0⟩ }

theorem claim_C5_attack_witness :
    c5Attacker.CanAttack = true ∧ c5Target.IsAlive = true ∧
    c5Attacker.Position.Distance c5Target.Position ≤
      c5Attacker.Range + c5Attacker.GetCollisionRadius + c5Target.GetCollisionRadius ∧
    c5Attacker.Attack c5Target =
      (max 1 (c5Attacker.AttackPower +
          (if c5Attacker.type = "mage" then c5Attacker.MagicPower else 0) - c5Target.Defense),
       { c5Attacker with LastAttackTime := c5Attacker.AttackCooldown },
       c5Target.TakeDamage
         (max 1 (c5Attacker.AttackPower +
           (if c5Attacker.type = "mage" then c5Attacker.MagicPower else 0) - c5Target.Defense))) ∧
    1 ≤ (c5Attacker.Attack c5Target).1 := by
  have hc : c5Attacker.CanAttack = true := by
    simp [Unit.CanAttack, c5Attacker, baseUnit]
  have ha : c5Target.IsAlive = true := by
    simp [c5Target, baseUnit]
  have hd : c5Attacker.Position.Distance c5Target.Position ≤
      c5Attacker.Range + c5Attacker.GetCollisionRadius + c5Target.GetCollisionRadius := by
    have : c5Attacker.Position.Distance c5Target.Position = 10 := by
      show Vector2D.Distance ⟨0, 0⟩ ⟨10, 0⟩ = 10
      rw [Vector2D.distance_same_y 0 10 0 (by norm_num)]
      norm_num
    rw [this]
    show (10 : ℝ) ≤ 15 + 3 * 1 + 3 * 1
    norm_num
  exact ⟨hc, ha, hd, ((claim_C5_attack c5Attacker c5Target).2 hc ha hd).1,
    ((claim_C5_attack c5Attacker c5Target).2 hc ha hd).2⟩

/-! ## C6: `Unit.ResolveCollision` -/

/-- Concrete unit for the C6 counterexample. -/
def c6U : Unit := baseUnit

/-- Second concrete unit for the C6 counterexample, at the same position. -/
def c6O : Unit := { baseUnit with ID := 1 }

/-- C6 counterexample: two distinct alive units whose centres coincide have
distance 0 < combined radius, yet `ResolveCollision` leaves them unchanged, so
afterwards their distance is not the combined radius. -/
theorem claim_C6_cex :
    c6U.ID ≠ c6O.ID ∧ c6U.IsAlive = true ∧ c6O.IsAlive = true ∧
    c6U.Position.Distance c6O.Position <
      c6U.GetCollisionRadius + c6O.GetCollisionRadius ∧
    (c6U.ResolveCollision c6O).1.Position.Distance
        (c6U.ResolveCollision c6O).2.Position ≠
      c6U.GetCollisionRadius + c6O.GetCollisionRadius := by
  have hdist : c6U.Position.Distance c6O.Position = 0 := by
    show Vector2D.Distance ⟨0, 0⟩ ⟨0, 0⟩ = 0
    exact Vector2D.distance_self _
  have hrad : c6U.GetCollisionRadius + c6O.GetCollisionRadius = 6 := by
    show 3 * (1 : ℝ) + 3 * 1 = 6
    norm_num
  have hres : c6U.ResolveCollision c6O = (c6U, c6O) := by
    unfold Unit.ResolveCollision
    rw [if_neg (by simp [c6U, c6O, baseUnit])]
    simp only []
    rw [if_neg (by rw [hdist]; intro h; exact lt_irrefl 0 h.2)]
  refine ⟨by simp [c6U, c6O, baseUnit], by simp [c6U, baseUnit],
    by simp [c6O, baseUnit], ?_, ?_⟩
  · rw [hdist, hrad]; norm_num
  · rw [hres, hdist, hrad]
    norm_num

/-- C6 amended: for distinct alive units whose center distance is strictly
positive and less than the combined collision radius, `ResolveCollision` makes
them exactly touch, and applies equal-and-opposite displacements of half the
overlap each along the connecting line.  (The original claim failed only at
coincident centres, where the code leaves both units unchanged.) -/
theorem claim_C6_resolveCollision (u o : Unit)
    (hu : u.IsAlive = true) (ho : o.IsAlive = true)
    (hpos : 0 < u.Position.Distance o.Position)
    (hover : u.Position.Distance o.Position <
      u.GetCollisionRadius + o.GetCollisionRadius) :
    (u.ResolveCollision o).1.Position.Distance (u.ResolveCollision o).2.Position
        = u.GetCollisionRadius + o.GetCollisionRadius ∧
    (u.ResolveCollision o).1.Position.Sub u.Position
        = (((u.ResolveCollision o).2.Position.Sub o.Position).Mul (-1)) ∧
    (u.ResolveCollision o).2.Position.Sub o.Position
        = ((o.Position.Sub u.Position).Normalize).Mul
            ((u.GetCollisionRadius + o.GetCollisionRadius -
              u.Position.Distance o.Position) * (1/2)) := by
  have hguard : ¬(u.IsAlive = false ∨ o.IsAlive = false) := by simp [hu, ho]
  set L := u.Position.Distance o.Position with hLdef
  set C := u.GetCollisionRadius + o.GetCollisionRadius with hCdef
  have hLne : L ≠ 0 := ne_of_gt hpos
  have hC : 0 < C := lt_trans hpos hover
  have hlen : (o.Position.Sub u.Position).Length = L := by
    rw [hLdef]
    unfold Vector2D.Length Vector2D.Sub Vector2D.Distance
    congr 1
    ring
  have hnorm : (o.Position.Sub u.Position).Normalize =
      ⟨(o.Position.X - u.Position.X) / L, (o.Position.Y - u.Position.Y) / L⟩ := by
    unfold Vector2D.Normalize
    rw [if_neg (by rw [hlen]; exact hLne), hlen]
    rfl
  have hsq : L * L = (o.Position.X - u.Position.X) * (o.Position.X - u.Position.X) +
      (o.Position.Y - u.Position.Y) * (o.Position.Y - u.Position.Y) := by
    rw [hLdef]
    unfold Vector2D.Distance
    rw [Real.mul_self_sqrt
      (by nlinarith [mul_self_nonneg (u.Position.X - o.Position.X),
        mul_self_nonneg (u.Position.Y - o.Position.Y)])]
    ring
  have hres : u.ResolveCollision o =
      ({ u with Position := u.Position.Sub ((Vector2D.mk ((o.Position.X - u.Position.X) / L) ((o.Position.Y - u.Position.Y) / L)).Mul ((C - L) * (1/2))) },
       { o with Position := o.Position.Add ((Vector2D.mk ((o.Position.X - u.Position.X) / L) ((o.Position.Y - u.Position.Y) / L)).Mul ((C - L) * (1/2))) }) := by
    unfold Unit.ResolveCollision
    rw [if_neg hguard]
    simp only []
    rw [if_pos ⟨hover, hpos⟩, hnorm]
  rw [hres]
  refine ⟨?_, ?_, ?_⟩
  · show Vector2D.Distance
        (u.Position.Sub ((Vector2D.mk ((o.Position.X - u.Position.X) / L) ((o.Position.Y - u.Position.Y) / L)).Mul ((C - L) * (1/2))))
        (o.Position.Add ((Vector2D.mk ((o.Position.X - u.Position.X) / L) ((o.Position.Y - u.Position.Y) / L)).Mul ((C - L) * (1/2)))) = C
    unfold Vector2D.Distance Vector2D.Sub Vector2D.Add Vector2D.Mul
    have hE : (u.Position.X - (o.Position.X - u.Position.X) / L * ((C - L) * (1/2)) - (o.Position.X + (o.Position.X - u.Position.X) / L * ((C - L) * (1/2)))) * (u.Position.X - (o.Position.X - u.Position.X) / L * ((C - L) * (1/2)) - (o.Position.X + (o.Position.X - u.Position.X) / L * ((C - L) * (1/2)))) + (u.Position.Y - (o.Position.Y - u.Position.Y) / L * ((C - L) * (1/2)) - (o.Position.Y + (o.Position.Y - u.Position.Y) / L * ((C - L) * (1/2)))) * (u.Position.Y - (o.Position.Y - u.Position.Y) / L * ((C - L) * (1/2)) - (o.Position.Y + (o.Position.Y - u.Position.Y) / L * ((C - L) * (1/2)))) = C ^ 2 := by
      field_simp
      linear_combination (-4 * C ^ 2) * hsq
    rw [hE, Real.sqrt_sq hC.le]
  · show Vector2D.Sub _ u.Position = _
    unfold Vector2D.Sub Vector2D.Add Vector2D.Mul
    congr 1 <;> ring
  · show Vector2D.Sub _ o.Position = _
    rw [hnorm]
    unfold Vector2D.Sub Vector2D.Add Vector2D.Mul
    congr 1 <;> ring

/-- Concrete units for the C6 witness: 4 apart on the x-axis, overlap 2. -/
def c6WA : Unit := baseUnit

/-- Second unit of the C6 witness pair. -/
def c6WB : Unit := { baseUnit with ID := 1, Position := ⟨4, 0⟩ }

theorem claim_C6_resolveCollision_witness :
    c6WA.IsAlive = true ∧ c6WB.IsAlive = true ∧
    0 < c6WA.Position.Distance c6WB.Position ∧
    c6WA.Position.Distance c6WB.Position <
      c6WA.GetCollisionRadius + c6WB.GetCollisionRadius ∧
    (c6WA.ResolveCollision c6WB).1.Position.Distance
        (c6WA.ResolveCollision c6WB).2.Position
      = c6WA.GetCollisionRadius + c6WB.GetCollisionRadius := by
  have hdist : c6WA.Position.Distance c6WB.Position = 4 := by
    show Vector2D.Distance ⟨0, 0⟩ ⟨4, 0⟩ = 4
    rw [Vector2D.distance_same_y 0 4 0 (by norm_num)]
    norm_num
  have h1 : c6WA.IsAlive = true := by simp [c6WA, baseUnit]
  have h2 : c6WB.IsAlive = true := by simp [c6WB, baseUnit]
  have h3 : 0 < c6WA.Position.Distance c6WB.Position := by rw [hdist]; norm_num
  have h4 : c6WA.Position.Distance c6WB.Position <
      c6WA.GetCollisionRadius + c6WB.GetCollisionRadius := by
    rw [hdist]
    show (4 : ℝ) < 3 * 1 + 3 * 1
    norm_num
  exact ⟨h1, h2, h3, h4, (claim_C6_resolveCollision c6WA c6WB h1 h2 h3 h4).1⟩

/-! ## C3: combat target selection -/

/-- Invariant of the `combatScan` fold: it either keeps the accumulator and no
scanned enemy is in range and strictly closer, or it returns the first-found
minimal in-range enemy. -/
theorem combatScan_foldl_spec (s : Store) (u : Unit) :
    ∀ (l : List Nat) (acc : Option Nat) (m : ℝ),
      (l.foldl (combatScan s u) (acc, m) = (acc, m) ∧
        ∀ e ∈ l, ¬(u.Position.Distance (s e).Position ≤ u.Range ∧
          u.Position.Distance (s e).Position < m)) ∨
      (∃ t l1 l2, l = l1 ++ t :: l2 ∧
        l.foldl (combatScan s u) (acc, m) = (some t, u.Position.Distance (s t).Position) ∧
        u.Position.Distance (s t).Position ≤ u.Range ∧
        u.Position.Distance (s t).Position < m ∧
        (∀ e ∈ l1, u.Position.Distance (s e).Position ≤ u.Range →
          u.Position.Distance (s t).Position < u.Position.Distance (s e).Position) ∧
        (∀ e ∈ l2, u.Position.Distance (s e).Position ≤ u.Range →
          u.Position.Distance (s t).Position ≤ u.Position.Distance (s e).Position)) := by
  intro l
  induction l with
  | nil => intro acc m; exact Or.inl ⟨rfl, by simp⟩
  | cons e rest ih =>
    intro acc m
    rw [List.foldl_cons]
    by_cases h : u.Position.Distance (s e).Position ≤ u.Range ∧
        u.Position.Distance (s e).Position < m
    · have hstep : combatScan s u (acc, m) e =
          (some e, u.Position.Distance (s e).Position) := by
        unfold combatScan
        rw [if_pos h]
      rw [hstep]
      rcases ih (some e) (u.Position.Distance (s e).Position) with ⟨hfold, hall⟩ |
        ⟨t, l1, l2, hsplit, hfold, hrange, hlt, h1, h2⟩
      · refine Or.inr ⟨e, [], rest, by simp, hfold, h.1, h.2, by simp, ?_⟩
        intro e' he' hr
        have := hall e' he'
        by_contra hcon
        exact this ⟨hr, lt_of_not_le hcon⟩
      · refine Or.inr ⟨t, e :: l1, l2, by rw [hsplit]; rfl, hfold, hrange,
          lt_trans hlt h.2, ?_, h2⟩
        intro e' he' hr
        rcases List.mem_cons.mp he' with rfl | he'
        · exact hlt
        · exact h1 e' he' hr
    · have hstep : combatScan s u (acc, m) e = (acc, m) := by
        unfold combatScan
        rw [if_neg h]
      rw [hstep]
      rcases ih acc m with ⟨hfold, hall⟩ | ⟨t, l1, l2, hsplit, hfold, hrange, hlt, h1, h2⟩
      · refine Or.inl ⟨hfold, ?_⟩
        intro e' he'
        rcases List.mem_cons.mp he' with rfl | he'
        · exact h
        · exact hall e' he'
      · refine Or.inr ⟨t, e :: l1, l2, by rw [hsplit]; rfl, hfold, hrange, hlt, ?_, h2⟩
        intro e' he' hr
        rcases List.mem_cons.mp he' with rfl | he'
        · have hm : m ≤ u.Position.Distance (s e').Position := by
            by_contra hcon
            exact h ⟨hr, lt_of_not_le hcon⟩
          exact lt_of_lt_of_le hlt hm
        · exact h1 e' he' hr

/-- C3.  In the combat pass, a cooldown-gated attacker does nothing; an eligible
attacker attacks nothing when no enemy is within raw `Range`, and otherwise
attacks exactly the first-in-iteration-order enemy of minimal center distance
among those within the raw `Range` stat. -/
theorem claim_C3_combatTargeting (s : Store) (u : Unit) (enemies : List Nat) :
    (findCombatTarget s u enemies = none →
      ∀ e ∈ enemies, ¬ u.Position.Distance (s e).Position ≤ u.Range) ∧
    (∀ t, findCombatTarget s u enemies = some t →
      ∃ l1 l2, enemies = l1 ++ t :: l2 ∧
        u.Position.Distance (s t).Position ≤ u.Range ∧
        (∀ e ∈ l1, u.Position.Distance (s e).Position ≤ u.Range →
          u.Position.Distance (s t).Position < u.Position.Distance (s e).Position) ∧
        (∀ e ∈ l2, u.Position.Distance (s e).Position ≤ u.Range →
          u.Position.Distance (s t).Position ≤ u.Position.Distance (s e).Position)) ∧
    (∀ i : Nat, (s i).CanAttack = false → combatPass s [i] enemies = s) ∧
    (∀ i : Nat, findCombatTarget s (s i) enemies = none → combatPass s [i] enemies = s) := by
  refine ⟨?_, ?_, ?_, ?_⟩
  · intro hnone e he hr
    rcases combatScan_foldl_spec s u enemies none (u.Range + 1) with ⟨_, hall⟩ |
      ⟨t, l1, l2, _, hfold, _, _, _, _⟩
    · exact hall e he ⟨hr, lt_of_le_of_lt hr (lt_add_one _)⟩
    · unfold findCombatTarget at hnone
      rw [hfold] at hnone
      simp at hnone
  · intro t ht
    rcases combatScan_foldl_spec s u enemies none (u.Range + 1) with ⟨hfold, _⟩ |
      ⟨t', l1, l2, hsplit, hfold, hrange, _, h1, h2⟩
    · unfold findCombatTarget at ht
      rw [hfold] at ht
      simp at ht
    · unfold findCombatTarget at ht
      rw [hfold] at ht
      simp at ht
      subst ht
      exact ⟨l1, l2, hsplit, hrange, h1, h2⟩
  · intro i hc
    show List.foldl _ s [i] = s
    simp only [List.foldl_cons, List.foldl_nil]
    rw [if_pos hc]
  · intro i hn
    show List.foldl _ s [i] = s
    simp only [List.foldl_cons, List.foldl_nil]
    by_cases hc : (s i).CanAttack = false
    · rw [if_pos hc]
    · rw [if_neg hc, hn]

/-- Concrete attacker for the C3 witness. -/
def c3U : Unit := baseUnit

/-- Concrete store for the C3 witness: enemies at distances 12 and 5. -/
def c3Store : Store := fun i =>
  if i = 1 then { baseUnit with ID := 1, ArmyID := 1, Position := ⟨12, 0⟩ }
  else if i = 2 then { baseUnit with ID := 2, ArmyID := 1, Position := ⟨5, 0⟩ }
  else baseUnit

theorem claim_C3_combatTargeting_witness :
    findCombatTarget c3Store c3U [1, 2] = some 2 ∧
    (∃ l1 l2, ([1, 2] : List Nat) = l1 ++ 2 :: l2 ∧
      c3U.Position.Distance (c3Store 2).Position ≤ c3U.Range ∧
      (∀ e ∈ l1, c3U.Position.Distance (c3Store e).Position ≤ c3U.Range →
        c3U.Position.Distance (c3Store 2).Position <
          c3U.Position.Distance (c3Store e).Position) ∧
      (∀ e ∈ l2, c3U.Position.Distance (c3Store e).Position ≤ c3U.Range →
        c3U.Position.Distance (c3Store 2).Position ≤
          c3U.Position.Distance (c3Store e).Position)) := by
  have hd1 : c3U.Position.Distance (c3Store 1).Position = 12 := by
    show Vector2D.Distance ⟨0, 0⟩ ⟨12, 0⟩ = 12
    rw [Vector2D.distance_same_y 0 12 0 (by norm_num)]
    norm_num
  have hd2 : c3U.Position.Distance (c3Store 2).Position = 5 := by
    show Vector2D.Distance ⟨0, 0⟩ ⟨5, 0⟩ = 5
    rw [Vector2D.distance_same_y 0 5 0 (by norm_num)]
    norm_num
  have hrng : c3U.Range = 15 := rfl
  have hfind : findCombatTarget c3Store c3U [1, 2] = some 2 := by
    unfold findCombatTarget
    simp only [List.foldl_cons, List.foldl_nil]
    have s1 : combatScan c3Store c3U (none, c3U.Range + 1) 1 = (some 1, 12) := by
      unfold combatScan
      rw [hd1]
      rw [if_pos (by rw [hrng]; norm_num)]
    have s2 : combatScan c3Store c3U (some 1, 12) 2 = (some 2, 5) := by
      unfold combatScan
      rw [hd2]
      rw [if_pos (by rw [hrng]; norm_num)]
    rw [s1, s2]
  exact ⟨hfind, (claim_C3_combatTargeting c3Store c3U [1, 2]).2.1 2 hfind⟩

/-! ## C7: target-selection score -/

/-- Modelled from the spec's score formula, as a refinement reference: the spec
grants the +100 bonus when the enemy is within the attacker's EFFECTIVE attack
range (raw range plus both collision radii). -/
def specTargetScore (unit enemy : Unit) (distance : ℝ) : ℝ :=
  1000 - distance * (5/100) + (1 - enemy.GetHealthPercentage) * 30 +
  (if enemy.IsLeader = true then 50 else 0) +
  (if distance ≤ unit.Range + unit.GetCollisionRadius + enemy.GetCollisionRadius
    then 100 else 0) +
  (if enemy.type = "mage" then 20
   else if enemy.type = "archer" then 15
   else if enemy.type = "infantry" then 10 else 0)

/-- Concrete enemy for the C7 counterexample, at distance 18: inside the
effective range 15+3+3 = 21, outside the raw range 15. -/
def c7E : Unit := { baseUnit with ID := 1, ArmyID := 1, Position := ⟨18, 0⟩ }

/-- C7 counterexample: at distance 18 the code's score (raw-range bonus) differs
from the spec's score (effective-range bonus): 1009.1 versus 1109.1. -/
theorem claim_C7_cex :
    c7E.IsAlive = true ∧ c7E.IsRetreating = false ∧
    baseUnit.Position.Distance c7E.Position ≤ baseUnit.GetSightRange ∧
    baseUnit.Position.Distance c7E.Position ≤
      baseUnit.Range + baseUnit.GetCollisionRadius + c7E.GetCollisionRadius ∧
    calculateTargetScore baseUnit c7E (baseUnit.Position.Distance c7E.Position) ≠
      specTargetScore baseUnit c7E (baseUnit.Position.Distance c7E.Position) := by
  have hd : baseUnit.Position.Distance c7E.Position = 18 := by
    show Vector2D.Distance ⟨0, 0⟩ ⟨18, 0⟩ = 18
    rw [Vector2D.distance_same_y 0 18 0 (by norm_num)]
    norm_num
  refine ⟨rfl, rfl, ?_, ?_, ?_⟩
  · rw [hd]; show (18 : ℝ) ≤ 5000; norm_num
  · rw [hd]; show (18 : ℝ) ≤ 15 + 3 * 1 + 3 * 1; norm_num
  · rw [hd]
    have hcode : calculateTargetScore baseUnit c7E 18 =
        1000 - 18 * (5/100) + 0 + 0 + 0 + 10 := by
      unfold calculateTargetScore
      have h1 : c7E.GetHealthPercentage = 1 := by
        show (if (100 : ℤ) = 0 then (0 : ℝ) else ((100 : ℤ) : ℝ) / ((100 : ℤ) : ℝ)) = 1
        norm_num
      rw [h1]
      rw [if_neg (by show ¬(c7E.IsLeader = true); simp [c7E, baseUnit])]
      rw [if_neg (by show ¬((18 : ℝ) ≤ baseUnit.Range); show ¬((18 : ℝ) ≤ 15); norm_num)]
      rw [if_neg (by show ¬(c7E.type = "mage"); simp [c7E, baseUnit])]
      rw [if_neg (by show ¬(c7E.type = "archer"); simp [c7E, baseUnit])]
      rw [if_pos (by show c7E.type = "infantry"; rfl)]
      ring
    have hspec : specTargetScore baseUnit c7E 18 =
        1000 - 18 * (5/100) + 0 + 0 + 100 + 10 := by
      unfold specTargetScore
      have h1 : c7E.GetHealthPercentage = 1 := by
        show (if (100 : ℤ) = 0 then (0 : ℝ) else ((100 : ℤ) : ℝ) / ((100 : ℤ) : ℝ)) = 1
        norm_num
      rw [h1]
      rw [if_neg (by show ¬(c7E.IsLeader = true); simp [c7E, baseUnit])]
      rw [if_pos (by
        show (18 : ℝ) ≤ baseUnit.Range + baseUnit.GetCollisionRadius + c7E.GetCollisionRadius
        show (18 : ℝ) ≤ 15 + 3 * 1 + 3 * 1
        norm_num)]
      rw [if_neg (by show ¬(c7E.type = "mage"); simp [c7E, baseUnit])]
      rw [if_neg (by show ¬(c7E.type = "archer"); simp [c7E, baseUnit])]
      rw [if_pos (by show c7E.type = "infantry"; rfl)]
      ring
    rw [hcode, hspec]
    norm_num

/-- Candidates of `selectTarget`: alive, not retreating, within sight range. -/
def targetCandidate (s : Store) (unit : Unit) (e : Nat) : Prop :=
  (s e).IsAlive = true ∧ (s e).IsRetreating = false ∧
  unit.Position.Distance (s e).Position ≤ unit.GetSightRange

/-- Shorthand for the score of a stored enemy. -/
def scoreOf (s : Store) (unit : Unit) (e : Nat) : ℝ :=
  calculateTargetScore unit (s e) (unit.Position.Distance (s e).Position)

/-- Invariant of `selectTargetLoop`: it either keeps the accumulator (no
candidate beats the current best score) or returns the first-found candidate of
maximal score. -/
theorem selectTargetLoop_spec (s : Store) (unit : Unit) :
    ∀ (l : List Nat) (acc : Option Nat) (bs : ℝ),
      (selectTargetLoop s unit l acc bs = acc ∧
        ∀ e ∈ l, targetCandidate s unit e → scoreOf s unit e ≤ bs) ∨
      (∃ t l1 l2, l = l1 ++ t :: l2 ∧
        selectTargetLoop s unit l acc bs = some t ∧
        targetCandidate s unit t ∧ bs < scoreOf s unit t ∧
        (∀ e ∈ l1, targetCandidate s unit e → scoreOf s unit e < scoreOf s unit t) ∧
        (∀ e ∈ l2, targetCandidate s unit e → scoreOf s unit e ≤ scoreOf s unit t)) := by
  intro l
  induction l with
  | nil => intro acc bs; exact Or.inl ⟨rfl, by simp⟩
  | cons e rest ih =>
    intro acc bs
    by_cases hdead : (s e).IsAlive = false ∨ (s e).IsRetreating = true
    · have hstep : selectTargetLoop s unit (e :: rest) acc bs =
          selectTargetLoop s unit rest acc bs := by
        rw [selectTargetLoop]
        simp only []
        rw [if_pos hdead]
      have hnc : ¬ targetCandidate s unit e := by
        intro hc
        rcases hdead with h | h
        · rw [hc.1] at h; simp at h
        · rw [hc.2.1] at h; simp at h
      rw [hstep]
      rcases ih acc bs with ⟨hfold, hall⟩ | ⟨t, l1, l2, hsplit, hfold, hc, hbs, h1, h2⟩
      · refine Or.inl ⟨hfold, ?_⟩
        intro e' he' hc'
        rcases List.mem_cons.mp he' with rfl | he'
        · exact absurd hc' hnc
        · exact hall e' he' hc'
      · refine Or.inr ⟨t, e :: l1, l2, by rw [hsplit]; rfl, hfold, hc, hbs, ?_, h2⟩
        intro e' he' hc'
        rcases List.mem_cons.mp he' with rfl | he'
        · exact absurd hc' hnc
        · exact h1 e' he' hc'
    · by_cases hsight : unit.Position.Distance (s e).Position > unit.GetSightRange
      · have hstep : selectTargetLoop s unit (e :: rest) acc bs =
            selectTargetLoop s unit rest acc bs := by
          rw [selectTargetLoop]
          simp only []
          rw [if_neg hdead, if_pos hsight]
        have hnc : ¬ targetCandidate s unit e := fun hc => absurd hc.2.2 (not_le.mpr hsight)
        rw [hstep]
        rcases ih acc bs with ⟨hfold, hall⟩ | ⟨t, l1, l2, hsplit, hfold, hc, hbs, h1, h2⟩
        · refine Or.inl ⟨hfold, ?_⟩
          intro e' he' hc'
          rcases List.mem_cons.mp he' with rfl | he'
          · exact absurd hc' hnc
          · exact hall e' he' hc'
        · refine Or.inr ⟨t, e :: l1, l2, by rw [hsplit]; rfl, hfold, hc, hbs, ?_, h2⟩
          intro e' he' hc'
          rcases List.mem_cons.mp he' with rfl | he'
          · exact absurd hc' hnc
          · exact h1 e' he' hc'
      · have hcand : targetCandidate s unit e := by
          refine ⟨?_, ?_, not_lt.mp hsight⟩
          · by_contra hne
            exact hdead (Or.inl (by simpa using hne))
          · by_contra hne
            exact hdead (Or.inr (by simpa using hne))
        by_cases hbeat : calculateTargetScore unit (s e)
            (unit.Position.Distance (s e).Position) > bs
        · have hstep : selectTargetLoop s unit (e :: rest) acc bs =
              selectTargetLoop s unit rest (some e) (scoreOf s unit e) := by
            rw [selectTargetLoop]
            simp only []
            rw [if_neg hdead, if_neg hsight, if_pos hbeat]
            rfl
          rw [hstep]
          rcases ih (some e) (scoreOf s unit e) with ⟨hfold, hall⟩ |
            ⟨t, l1, l2, hsplit, hfold, hc, hbs, h1, h2⟩
          · exact Or.inr ⟨e, [], rest, by simp, hfold, hcand, hbeat, by simp, hall⟩
          · refine Or.inr ⟨t, e :: l1, l2, by rw [hsplit]; rfl, hfold, hc,
              lt_trans hbeat hbs, ?_, h2⟩
            intro e' he' hc'
            rcases List.mem_cons.mp he' with rfl | he'
            · exact hbs
            · exact h1 e' he' hc'
        · have hstep : selectTargetLoop s unit (e :: rest) acc bs =
              selectTargetLoop s unit rest acc bs := by
            rw [selectTargetLoop]
            simp only []
            rw [if_neg hdead, if_neg hsight, if_neg hbeat]
          rw [hstep]
          rcases ih acc bs with ⟨hfold, hall⟩ | ⟨t, l1, l2, hsplit, hfold, hc, hbs, h1, h2⟩
          · refine Or.inl ⟨hfold, ?_⟩
            intro e' he' hc'
            rcases List.mem_cons.mp he' with rfl | he'
            · exact not_lt.mp hbeat
            · exact hall e' he' hc'
          · refine Or.inr ⟨t, e :: l1, l2, by rw [hsplit]; rfl, hfold, hc, hbs, ?_, h2⟩
            intro e' he' hc'
            rcases List.mem_cons.mp he' with rfl | he'
            · exact lt_of_le_of_lt (not_lt.mp hbeat) hbs
            · exact h1 e' he' hc'

/-- Any candidate within sight scores at least 750 (given the HP invariant),
so it always beats the initial best score −1. -/
theorem calculateTargetScore_lower (a e : Unit) (d : ℝ)
    (hd : d ≤ 5000) (hhp : 0 ≤ e.HP) (hmax : e.HP ≤ e.MaxHP) :
    (750 : ℝ) ≤ calculateTargetScore a e d := by
  have hh : e.GetHealthPercentage ≤ 1 := by
    unfold Unit.GetHealthPercentage
    by_cases h0 : e.MaxHP = 0
    · rw [if_pos h0]; norm_num
    · rw [if_neg h0]
      have hpos : (0 : ℤ) < e.MaxHP := lt_of_le_of_ne (le_trans hhp hmax) (Ne.symm h0)
      rw [div_le_one (by exact_mod_cast hpos)]
      exact_mod_cast hmax
  unfold calculateTargetScore
  have b1 : (0 : ℝ) ≤ (if e.IsLeader = true then 50 else 0) := by positivity
  have b2 : (0 : ℝ) ≤ (if d ≤ a.Range then 100 else 0) := by positivity
  have b3 : (0 : ℝ) ≤ (if e.type = "mage" then 20
      else if e.type = "archer" then 15
      else if e.type = "infantry" then 10 else 0) := by positivity
  have bh : (0 : ℝ) ≤ (1 - e.GetHealthPercentage) * 30 := by nlinarith
  nlinarith

/-- C7 amended: the +100 bonus is granted exactly when the enemy is within the
attacker's RAW attack range (not the effective range); with that fix,
`selectTarget` picks, among enemies that are alive, not retreating and within
sight range, the first-in-iteration-order enemy of maximal score. -/
theorem claim_C7_selectTarget (s : Store) (unit : Unit) (enemies : List Nat)
    (hinv : ∀ e ∈ enemies, 0 ≤ (s e).HP ∧ (s e).HP ≤ (s e).MaxHP) :
    (∀ (a en : Unit) (d : ℝ), calculateTargetScore a en d =
      1000 - d * (5/100) + (1 - en.GetHealthPercentage) * 30 +
      (if en.IsLeader = true then 50 else 0) +
      (if d ≤ a.Range then 100 else 0) +
      (if en.type = "mage" then 20
       else if en.type = "archer" then 15
       else if en.type = "infantry" then 10 else 0)) ∧
    (selectTarget s unit enemies = none →
      ∀ e ∈ enemies, ¬ targetCandidate s unit e) ∧
    (∀ t, selectTarget s unit enemies = some t →
      targetCandidate s unit t ∧
      ∃ l1 l2, enemies = l1 ++ t :: l2 ∧
        (∀ e ∈ l1, targetCandidate s unit e →
          scoreOf s unit e < scoreOf s unit t) ∧
        (∀ e ∈ l2, targetCandidate s unit e →
          scoreOf s unit e ≤ scoreOf s unit t)) := by
  refine ⟨fun a en d => rfl, ?_, ?_⟩
  · intro hnone e he hc
    rcases selectTargetLoop_spec s unit enemies none (-1) with ⟨_, hall⟩ |
      ⟨t, l1, l2, _, hfold, _, _, _, _⟩
    · have hscore := hall e he hc
      have h750 : (750 : ℝ) ≤ scoreOf s unit e :=
        calculateTargetScore_lower unit (s e) _ hc.2.2 (hinv e he).1 (hinv e he).2
      linarith
    · unfold selectTarget at hnone
      rw [hfold] at hnone
      exact Option.noConfusion hnone
  · intro t ht
    rcases selectTargetLoop_spec s unit enemies none (-1) with ⟨hfold, _⟩ |
      ⟨t', l1, l2, hsplit, hfold, hc, _, h1, h2⟩
    · unfold selectTarget at ht
      rw [hfold] at ht
      exact Option.noConfusion ht
    · unfold selectTarget at ht
      rw [hfold] at ht
      have : t' = t := Option.some.inj ht
      subst this
      exact ⟨hc, l1, l2, hsplit, h1, h2⟩

/-- Concrete store for the C7 witness: enemies at distances 100 (id 1) and
50 (id 2); the closer one scores higher and must win. -/
def c7Store : Store := fun i =>
  if i = 1 then { baseUnit with ID := 1, ArmyID := 1, Position := ⟨100, 0⟩ }
  else if i = 2 then { baseUnit with ID := 2, ArmyID := 1, Position := ⟨50, 0⟩ }
  else baseUnit

theorem claim_C7_selectTarget_witness :
    (∀ e ∈ ([1, 2] : List Nat), 0 ≤ (c7Store e).HP ∧ (c7Store e).HP ≤ (c7Store e).MaxHP) ∧
    selectTarget c7Store baseUnit [1, 2] = some 2 ∧
    targetCandidate c7Store baseUnit 2 := by
  have hd1 : baseUnit.Position.Distance (c7Store 1).Position = 100 := by
    show Vector2D.Distance ⟨0, 0⟩ ⟨100, 0⟩ = 100
    rw [Vector2D.distance_same_y 0 100 0 (by norm_num)]
    norm_num
  have hd2 : baseUnit.Position.Distance (c7Store 2).Position = 50 := by
    show Vector2D.Distance ⟨0, 0⟩ ⟨50, 0⟩ = 50
    rw [Vector2D.distance_same_y 0 50 0 (by norm_num)]
    norm_num
  have hc1 : c7Store 1 = { baseUnit with ID := 1, ArmyID := 1, Position := ⟨100, 0⟩ } := rfl
  have hc2 : c7Store 2 = { baseUnit with ID := 2, ArmyID := 1, Position := ⟨50, 0⟩ } := rfl
  have hhp : ∀ e ∈ ([1, 2] : List Nat),
      0 ≤ (c7Store e).HP ∧ (c7Store e).HP ≤ (c7Store e).MaxHP := by
    intro e he
    rcases List.mem_cons.mp he with rfl | he
    · rw [hc1]; exact ⟨by norm_num [baseUnit], by norm_num [baseUnit]⟩
    · rcases List.mem_cons.mp he with rfl | he
      · rw [hc2]; exact ⟨by norm_num [baseUnit], by norm_num [baseUnit]⟩
      · exact absurd he (List.not_mem_nil _)
  have hs1 : calculateTargetScore baseUnit (c7Store 1)
      (baseUnit.Position.Distance (c7Store 1).Position) = 1005 := by
    rw [hd1, hc1]
    unfold calculateTargetScore Unit.GetHealthPercentage
    norm_num [baseUnit]
    rw [if_neg (by decide : ("infantry" : String) ≠ "mage"),
      if_neg (by decide : ("infantry" : String) ≠ "archer")]
    norm_num
  have hs2 : calculateTargetScore baseUnit (c7Store 2)
      (baseUnit.Position.Distance (c7Store 2).Position) = 2015/2 := by
    rw [hd2, hc2]
    unfold calculateTargetScore Unit.GetHealthPercentage
    norm_num [baseUnit]
    rw [if_neg (by decide : ("infantry" : String) ≠ "mage"),
      if_neg (by decide : ("infantry" : String) ≠ "archer")]
    norm_num
  have hv1 : ¬((c7Store 1).IsAlive = false ∨ (c7Store 1).IsRetreating = true) := by
    rw [hc1]; simp [baseUnit]
  have hv2 : ¬((c7Store 2).IsAlive = false ∨ (c7Store 2).IsRetreating = true) := by
    rw [hc2]; simp [baseUnit]
  have hg1 : ¬(baseUnit.Position.Distance (c7Store 1).Position > baseUnit.GetSightRange) := by
    rw [hd1]; show ¬((100 : ℝ) > 5000); norm_num
  have hg2 : ¬(baseUnit.Position.Distance (c7Store 2).Position > baseUnit.GetSightRange) := by
    rw [hd2]; show ¬((50 : ℝ) > 5000); norm_num
  have hsel : selectTarget c7Store baseUnit [1, 2] = some 2 := by
    unfold selectTarget
    rw [selectTargetLoop]
    simp only []
    rw [if_neg hv1, if_neg hg1, if_pos (by rw [hs1]; norm_num)]
    rw [selectTargetLoop]
    simp only []
    rw [if_neg hv2, if_neg hg2, if_pos (by rw [hs1, hs2]; norm_num)]
    rw [selectTargetLoop]
  exact ⟨hhp, hsel,
    ((claim_C7_selectTarget c7Store baseUnit [1, 2] hhp).2.2 2 hsel).1⟩

/-! ## C2: decision-cooldown gating of AI execution -/

theorem Vector2D.normalize_xaxis (a : ℝ) (h : 0 < a) :
    Vector2D.Normalize ⟨a, 0⟩ = ⟨1, 0⟩ := by
  unfold Vector2D.Normalize Vector2D.Length
  have hl : Real.sqrt (a * a + 0 * 0) = a := by
    rw [mul_zero, add_zero, Real.sqrt_mul_self h.le]
  rw [hl, if_neg (ne_of_gt h)]
  rw [div_self (ne_of_gt h), zero_div]

/-- On a tick where the decision cooldown has not elapsed, `AIBehavior.Update`
only accumulates the decision timer: nothing else changes. -/
theorem aiUpdate_gated (s : Store) (ai : AIBehavior) (u : Unit)
    (enemies : List Nat) (dt : ℝ)
    (halive : u.IsAlive = true) (hret : u.IsRetreating = false)
    (hgate : ai.LastDecisionTime + dt < ai.DecisionCooldown) :
    AIBehavior.Update s ai u enemies dt =
      { u with AI := some { ai with LastDecisionTime := ai.LastDecisionTime + dt } } := by
  unfold AIBehavior.Update
  rw [if_neg (by simp [halive, hret])]
  simp only []
  rw [if_pos hgate]

/-- AI state of the C2 counterexample unit: a previously decided `Approach`
action with a live target. -/
def c2AI : AIBehavior :=
  { NewAIBehavior "infantry" with CurrentAction := .Approach, TargetEnemy := some 1 }

/-- The C2 counterexample unit. -/
def c2U : Unit := { baseUnit with AI := some c2AI }

/-- Store of the C2 counterexample: the live enemy (id 1) stands at (800, 0). -/
def c2Store : Store := fun i =>
  if i = 1 then { baseUnit with ID := 1, ArmyID := 1, Position := ⟨800, 0⟩ } else c2U

/-- C2 counterexample: on a tick of 0.05 s (shorter than the 0.1 s decision
cooldown), `AIBehavior.Update` leaves the unit's movement `Target` unchanged,
although executing the previously decided `Approach` action would move it. -/
theorem claim_C2_cex :
    c2U.IsAlive = true ∧ c2U.IsRetreating = false ∧
    c2AI.CurrentAction = AIAction.Approach ∧ (c2Store 1).IsAlive = true ∧
    (AIBehavior.Update c2Store c2AI c2U [1] (1/20)).Target = c2U.Target ∧
    (executeAction c2Store c2AI c2U).Target ≠ c2U.Target := by
  have hgate : c2AI.LastDecisionTime + 1/20 < c2AI.DecisionCooldown := by
    show (NewAIBehavior "infantry").LastDecisionTime + 1/20 <
      (NewAIBehavior "infantry").DecisionCooldown
    norm_num [NewAIBehavior]
  have hupd := aiUpdate_gated c2Store c2AI c2U [1] (1/20) rfl rfl hgate
  have hcd : c2U.Position.Distance (c2Store 1).Position = 800 := by
    show Vector2D.Distance ⟨0, 0⟩ ⟨800, 0⟩ = 800
    rw [Vector2D.distance_same_y 0 800 0 (by norm_num)]
    norm_num
  have hsub : (c2Store 1).Position.Sub c2U.Position = (⟨800, 0⟩ : Vector2D) := by
    show Vector2D.Sub ⟨800, 0⟩ ⟨0, 0⟩ = _
    unfold Vector2D.Sub
    norm_num
  have hdir : ((c2Store 1).Position.Sub c2U.Position).Normalize = (⟨1, 0⟩ : Vector2D) := by
    rw [hsub]
    exact Vector2D.normalize_xaxis 800 (by norm_num)
  have hcond : c2U.Position.Distance (c2Store 1).Position >
      c2AI.PreferredRange * (9/10) +
        (c2U.GetCollisionRadius + (c2Store 1).GetCollisionRadius) := by
    rw [hcd]
    show (800 : ℝ) > 15 * (9/10) + (3 * 1 + 3 * 1)
    norm_num
  have hexec : (executeAction c2Store c2AI c2U).Target = (⟨50, 0⟩ : Vector2D) := by
    show (moveTowardsTarget c2Store c2AI c2U 1).Target = _
    simp only [moveTowardsTarget]
    rw [show c2AI.TargetEnemy = some 1 from rfl]
    simp only []
    rw [if_pos hcond]
    show (c2U.Position.Add
      ((((c2Store 1).Position.Sub c2U.Position).Normalize).Mul
        (min (c2U.Position.Distance (c2Store 1).Position -
          (c2AI.PreferredRange * (9/10) +
            (c2U.GetCollisionRadius + (c2Store 1).GetCollisionRadius))) 50 * 1))) = _
    rw [hdir, hcd]
    show Vector2D.Add ⟨0, 0⟩ (Vector2D.Mul ⟨1, 0⟩ (min (800 - (15 * (9/10) + (3 * 1 + 3 * 1))) 50 * 1)) = _
    unfold Vector2D.Add Vector2D.Mul
    have hmin : min ((800 : ℝ) - (15 * (9/10) + (3 * 1 + 3 * 1))) 50 = 50 := by
      rw [min_eq_right]
      norm_num
    rw [hmin]
    norm_num
  refine ⟨rfl, rfl, rfl, rfl, by rw [hupd], ?_⟩
  rw [hexec, show c2U.Target = (⟨0, 0⟩ : Vector2D) from rfl]
  intro h
  have hx := congrArg Vector2D.X h
  norm_num at hx

/-- C2 amended: AI movement execution is itself gated by the 0.1 s decision
cooldown: on a tick where the accumulated decision time stays below the
cooldown, `AIBehavior.Update` changes only the accumulator — in particular the
unit's movement `Target` is not re-written from the last decided action.
(Movement toward the previously written `Target` still happens every tick,
in `Unit.Update`.) -/
theorem claim_C2_execGating (s : Store) (ai : AIBehavior) (u : Unit)
    (enemies : List Nat) (dt : ℝ)
    (halive : u.IsAlive = true) (hret : u.IsRetreating = false)
    (hgate : ai.LastDecisionTime + dt < ai.DecisionCooldown) :
    AIBehavior.Update s ai u enemies dt =
      { u with AI := some { ai with LastDecisionTime := ai.LastDecisionTime + dt } } ∧
    (AIBehavior.Update s ai u enemies dt).Target = u.Target := by
  have h := aiUpdate_gated s ai u enemies dt halive hret hgate
  exact ⟨h, by rw [h]⟩

theorem claim_C2_execGating_witness :
    c2U.IsAlive = true ∧ c2U.IsRetreating = false ∧
    c2AI.LastDecisionTime + 1/20 < c2AI.DecisionCooldown ∧
    (AIBehavior.Update c2Store c2AI c2U [1] (1/20)).Target = c2U.Target := by
  have hgate : c2AI.LastDecisionTime + 1/20 < c2AI.DecisionCooldown := by
    show (NewAIBehavior "infantry").LastDecisionTime + 1/20 <
      (NewAIBehavior "infantry").DecisionCooldown
    norm_num [NewAIBehavior]
  exact ⟨rfl, rfl, hgate,
    (claim_C2_execGating c2Store c2AI c2U [1] (1/20) rfl rfl hgate).2⟩

/-! ## C8: decision cycle with no target found -/

/-- If no enemy passes the alive/retreating/sight filters, `selectTarget`
returns `none`. -/
theorem selectTarget_none (s : Store) (u : Unit) (enemies : List Nat)
    (h : ∀ e ∈ enemies, ¬ targetCandidate s u e) :
    selectTarget s u enemies = none := by
  rcases selectTargetLoop_spec s u enemies none (-1) with ⟨hfold, _⟩ |
    ⟨t, l1, l2, hsplit, hfold, hc, _, _, _⟩
  · exact hfold
  · exact absurd hc (h t (by rw [hsplit]; simp))

/-- On a decision cycle in which no enemy passes the filters, the AI clears its
target, goes `Idle`, and returns immediately: the unit's movement `Target` is
left unchanged (it is NOT set to the unit's position). -/
theorem aiUpdate_noTarget (s : Store) (ai : AIBehavior) (u : Unit)
    (enemies : List Nat) (dt : ℝ)
    (halive : u.IsAlive = true) (hret : u.IsRetreating = false)
    (hcycle : ¬(ai.LastDecisionTime + dt < ai.DecisionCooldown))
    (hnone : ∀ e ∈ enemies, ¬ targetCandidate s u e) :
    AIBehavior.Update s ai u enemies dt =
      { u with AI := some { ai with LastDecisionTime := 0, TargetEnemy := none, CurrentAction := .Idle } } := by
  have hsel := selectTarget_none s u enemies hnone
  unfold AIBehavior.Update
  rw [if_neg (by simp [halive, hret])]
  simp only []
  rw [if_neg hcycle, hsel]

/-- The C8 counterexample unit: standing at (5,0) while its movement target is
(9,9). -/
def c8U : Unit := { baseUnit with Position := ⟨5, 0⟩, Target := ⟨9, 9⟩ }

/-- AI state of the C8 counterexample. -/
def c8AI : AIBehavior := NewAIBehavior "infantry"

/-- Store of the C8 counterexample (irrelevant: the enemy list is empty). -/
def c8Store : Store := fun _ => baseUnit

/-- C8 counterexample: on a decision cycle with an empty enemy list the AI
target becomes null and the action becomes Idle, but the unit's movement
`Target` remains (9,9), different from its current position (5,0) — the code
returns before `executeAction`, so the unit is not halted in place. -/
theorem claim_C8_cex :
    c8U.IsAlive = true ∧ c8U.IsRetreating = false ∧
    ¬(c8AI.LastDecisionTime + 1/10 < c8AI.DecisionCooldown) ∧
    AIBehavior.Update c8Store c8AI c8U [] (1/10) =
      { c8U with AI := some { c8AI with LastDecisionTime := 0, TargetEnemy := none, CurrentAction := .Idle } } ∧
    (AIBehavior.Update c8Store c8AI c8U [] (1/10)).Target ≠
      (AIBehavior.Update c8Store c8AI c8U [] (1/10)).Position := by
  have hcycle : ¬(c8AI.LastDecisionTime + 1/10 < c8AI.DecisionCooldown) := by
    show ¬((NewAIBehavior "infantry").LastDecisionTime + 1/10 <
      (NewAIBehavior "infantry").DecisionCooldown)
    norm_num [NewAIBehavior]
  have hnone : ∀ e ∈ ([] : List Nat), ¬ targetCandidate c8Store c8U e := by
    intro e he
    exact absurd he (List.not_mem_nil _)
  have h := aiUpdate_noTarget c8Store c8AI c8U [] (1/10) rfl rfl hcycle hnone
  refine ⟨rfl, rfl, hcycle, h, ?_⟩
  rw [h]
  show (⟨9, 9⟩ : Vector2D) ≠ (⟨5, 0⟩ : Vector2D)
  intro hcon
  have hx := congrArg Vector2D.X hcon
  norm_num at hx

/-- C8 amended: on a decision cycle in which no enemy passes the sight-range
filter, the unit's AI target becomes null and its action becomes Idle, but the
unit's movement `Target` is left unchanged rather than being collapsed to the
unit's current position (the no-target path returns before action execution). -/
theorem claim_C8_noTargetIdle (s : Store) (ai : AIBehavior) (u : Unit)
    (enemies : List Nat) (dt : ℝ)
    (halive : u.IsAlive = true) (hret : u.IsRetreating = false)
    (hcycle : ¬(ai.LastDecisionTime + dt < ai.DecisionCooldown))
    (hnone : ∀ e ∈ enemies, ¬ targetCandidate s u e) :
    AIBehavior.Update s ai u enemies dt =
      { u with AI := some { ai with LastDecisionTime := 0, TargetEnemy := none, CurrentAction := .Idle } } ∧
    (AIBehavior.Update s ai u enemies dt).Target = u.Target := by
  have h := aiUpdate_noTarget s ai u enemies dt halive hret hcycle hnone
  exact ⟨h, by rw [h]⟩

/-- Witness unit for C8 (same situation as the counterexample, fresh ids to
keep the two statements independent). -/
def c8WU : Unit := { baseUnit with ID := 7, Position := ⟨5, 0⟩, Target := ⟨9, 9⟩ }

theorem claim_C8_noTargetIdle_witness :
    c8WU.IsAlive = true ∧ c8WU.IsRetreating = false ∧
    ¬(c8AI.LastDecisionTime + 1/10 < c8AI.DecisionCooldown) ∧
    (AIBehavior.Update c8Store c8AI c8WU [] (1/10)).Target = c8WU.Target := by
  have hcycle : ¬(c8AI.LastDecisionTime + 1/10 < c8AI.DecisionCooldown) := by
    show ¬((NewAIBehavior "infantry").LastDecisionTime + 1/10 <
      (NewAIBehavior "infantry").DecisionCooldown)
    norm_num [NewAIBehavior]
  have hnone : ∀ e ∈ ([] : List Nat), ¬ targetCandidate c8Store c8WU e := by
    intro e he
    exact absurd he (List.not_mem_nil _)
  exact ⟨rfl, rfl, hcycle,
    (claim_C8_noTargetIdle c8Store c8AI c8WU [] (1/10) rfl rfl hcycle hnone).2⟩

/-! ## C4: win conditions -/

theorem foldl_add_map (f : Nat → ℝ) (l : List Nat) :
    ∀ c : ℝ, l.foldl (fun acc i => acc + f i) c = c + (l.map f).sum := by
  induction l with
  | nil => intro c; simp
  | cons x xs ih =>
    intro c
    simp only [List.foldl_cons, List.map_cons, List.sum_cons, ih]
    ring

/-- C4.  While active, once the advanced clock reaches the time limit the
battle becomes inactive and the winner is decided by strict comparison of the
armies' total health fractions (the mean over all units of HP/maxHP), a draw
exactly on equality; below the time limit, both armies defeated is a draw,
exactly one defeated hands the win to the other side, and otherwise the battle
remains active with the winner unchanged. -/
theorem claim_C4_winConditions (bm : BattleManager) (dt : ℝ)
    (hact : bm.IsActive = true) :
    (∀ (s : Store) (a : Army), Army.GetTotalHealth s a =
      ((Army.GetAllUnits a).map (fun i => (s i).GetHealthPercentage)).sum /
        ((Army.GetAllUnits a).length : ℝ)) ∧
    (bm.TimeLimit ≤ bm.BattleTime + dt →
      (bm.Update dt).IsActive = false ∧
      ((bm.Update dt).Winner = 0 ↔
        Army.GetTotalHealth (bm.preWin dt).store (bm.preWin dt).ArmyB <
        Army.GetTotalHealth (bm.preWin dt).store (bm.preWin dt).ArmyA) ∧
      ((bm.Update dt).Winner = 1 ↔
        Army.GetTotalHealth (bm.preWin dt).store (bm.preWin dt).ArmyA <
        Army.GetTotalHealth (bm.preWin dt).store (bm.preWin dt).ArmyB) ∧
      ((bm.Update dt).Winner = 2 ↔
        Army.GetTotalHealth (bm.preWin dt).store (bm.preWin dt).ArmyA =
        Army.GetTotalHealth (bm.preWin dt).store (bm.preWin dt).ArmyB)) ∧
    (bm.BattleTime + dt < bm.TimeLimit →
      (Army.IsDefeated (bm.preWin dt).store (bm.preWin dt).ArmyA = true →
        Army.IsDefeated (bm.preWin dt).store (bm.preWin dt).ArmyB = true →
        (bm.Update dt).IsActive = false ∧ (bm.Update dt).Winner = 2) ∧
      (Army.IsDefeated (bm.preWin dt).store (bm.preWin dt).ArmyA = true →
        Army.IsDefeated (bm.preWin dt).store (bm.preWin dt).ArmyB = false →
        (bm.Update dt).IsActive = false ∧ (bm.Update dt).Winner = 1) ∧
      (Army.IsDefeated (bm.preWin dt).store (bm.preWin dt).ArmyA = false →
        Army.IsDefeated (bm.preWin dt).store (bm.preWin dt).ArmyB = true →
        (bm.Update dt).IsActive = false ∧ (bm.Update dt).Winner = 0) ∧
      (Army.IsDefeated (bm.preWin dt).store (bm.preWin dt).ArmyA = false →
        Army.IsDefeated (bm.preWin dt).store (bm.preWin dt).ArmyB = false →
        (bm.Update dt).IsActive = true ∧ (bm.Update dt).Winner = bm.Winner)) := by
  have hupd : bm.Update dt = checkWinConditions (bm.preWin dt) := by
    unfold BattleManager.Update
    rw [if_neg (by simp [hact])]
  have hBT : (bm.preWin dt).BattleTime = bm.BattleTime + dt := rfl
  have hTL : (bm.preWin dt).TimeLimit = bm.TimeLimit := rfl
  refine ⟨?_, ?_, ?_⟩
  · intro s a
    unfold Army.GetTotalHealth
    by_cases h : Army.GetAllUnits a = []
    · rw [if_pos h, h]
      simp
    · rw [if_neg h, foldl_add_map]
      rw [zero_add]
  · intro htime
    have hcond : (bm.preWin dt).BattleTime ≥ (bm.preWin dt).TimeLimit := by
      rw [hBT, hTL]; exact htime
    have hck : bm.Update dt = { bm.preWin dt with
        IsActive := false
        Winner := if Army.GetTotalHealth (bm.preWin dt).store (bm.preWin dt).ArmyA >
            Army.GetTotalHealth (bm.preWin dt).store (bm.preWin dt).ArmyB then 0
          else if Army.GetTotalHealth (bm.preWin dt).store (bm.preWin dt).ArmyB >
            Army.GetTotalHealth (bm.preWin dt).store (bm.preWin dt).ArmyA then 1
          else 2 } := by
      rw [hupd]
      unfold checkWinConditions
      rw [if_pos hcond]
    rw [hck]
    refine ⟨rfl, ?_, ?_, ?_⟩ <;>
      rcases lt_trichotomy
        (Army.GetTotalHealth (bm.preWin dt).store (bm.preWin dt).ArmyA)
        (Army.GetTotalHealth (bm.preWin dt).store (bm.preWin dt).ArmyB) with hlt | heq | hgt
    · show (if _ > _ then (0:ℤ) else if _ > _ then 1 else 2) = 0 ↔ _
      rw [if_neg (by exact fun h => absurd hlt (not_lt.mpr h.le)), if_pos hlt]
      constructor
      · intro h; exact absurd h (by norm_num)
      · intro h; exact absurd hlt (not_lt.mpr h.le)
    · show (if _ > _ then (0:ℤ) else if _ > _ then 1 else 2) = 0 ↔ _
      rw [if_neg (by rw [heq]; exact lt_irrefl _), if_neg (by rw [heq]; exact lt_irrefl _)]
      constructor
      · intro h; exact absurd h (by norm_num)
      · intro h; rw [heq] at h; exact absurd h (lt_irrefl _)
    · show (if _ > _ then (0:ℤ) else if _ > _ then 1 else 2) = 0 ↔ _
      rw [if_pos hgt]
      exact ⟨fun _ => hgt, fun _ => rfl⟩
    · show (if _ > _ then (0:ℤ) else if _ > _ then 1 else 2) = 1 ↔ _
      rw [if_neg (by exact fun h => absurd hlt (not_lt.mpr h.le)), if_pos hlt]
      exact ⟨fun _ => hlt, fun _ => rfl⟩
    · show (if _ > _ then (0:ℤ) else if _ > _ then 1 else 2) = 1 ↔ _
      rw [if_neg (by rw [heq]; exact lt_irrefl _), if_neg (by rw [heq]; exact lt_irrefl _)]
      constructor
      · intro h; exact absurd h (by norm_num)
      · intro h; rw [heq] at h; exact absurd h (lt_irrefl _)
    · show (if _ > _ then (0:ℤ) else if _ > _ then 1 else 2) = 1 ↔ _
      rw [if_pos hgt]
      constructor
      · intro h; exact absurd h (by norm_num)
      · intro h; exact absurd hgt (not_lt.mpr h.le)
    · show (if _ > _ then (0:ℤ) else if _ > _ then 1 else 2) = 2 ↔ _
      rw [if_neg (by exact fun h => absurd hlt (not_lt.mpr h.le)), if_pos hlt]
      constructor
      · intro h; exact absurd h (by norm_num)
      · intro h; rw [h] at hlt; exact absurd hlt (lt_irrefl _)
    · show (if _ > _ then (0:ℤ) else if _ > _ then 1 else 2) = 2 ↔ _
      rw [if_neg (by rw [heq]; exact lt_irrefl _), if_neg (by rw [heq]; exact lt_irrefl _)]
      exact ⟨fun _ => heq, fun _ => rfl⟩
    · show (if _ > _ then (0:ℤ) else if _ > _ then 1 else 2) = 2 ↔ _
      rw [if_pos hgt]
      constructor
      · intro h; exact absurd h (by norm_num)
      · intro h; rw [h] at hgt; exact absurd hgt (lt_irrefl _)
  · intro htime
    have hcond : ¬((bm.preWin dt).BattleTime ≥ (bm.preWin dt).TimeLimit) := by
      rw [hBT, hTL]; exact not_le.mpr htime
    have hck : bm.Update dt =
        (if Army.IsDefeated (bm.preWin dt).store (bm.preWin dt).ArmyA = true ∧
            Army.IsDefeated (bm.preWin dt).store (bm.preWin dt).ArmyB = true then
          { bm.preWin dt with IsActive := false, Winner := 2 }
        else if Army.IsDefeated (bm.preWin dt).store (bm.preWin dt).ArmyA = true then
          { bm.preWin dt with IsActive := false, Winner := 1 }
        else if Army.IsDefeated (bm.preWin dt).store (bm.preWin dt).ArmyB = true then
          { bm.preWin dt with IsActive := false, Winner := 0 }
        else bm.preWin dt) := by
      rw [hupd]
      unfold checkWinConditions
      rw [if_neg hcond]
    have hIA : (bm.preWin dt).IsActive = true := hact
    have hW : (bm.preWin dt).Winner = bm.Winner := rfl
    refine ⟨?_, ?_, ?_, ?_⟩
    · intro hA hB
      rw [hck, if_pos ⟨hA, hB⟩]
      exact ⟨rfl, rfl⟩
    · intro hA hB
      rw [hck, if_neg (by rw [hB]; exact fun h => by simpa using h.2), if_pos hA]
      exact ⟨rfl, rfl⟩
    · intro hA hB
      rw [hck, if_neg (by rw [hA]; exact fun h => by simpa using h.1),
        if_neg (by rw [hA]; simp), if_pos hB]
      exact ⟨rfl, rfl⟩
    · intro hA hB
      rw [hck, if_neg (by rw [hA]; exact fun h => by simpa using h.1),
        if_neg (by rw [hA]; simp), if_neg (by rw [hB]; simp)]
      exact ⟨hIA, hW⟩

/-- A trivially evaluable battle state for the C4 witness: two empty armies,
time limit already passed. -/
def c4BM : BattleManager :=
  { ArmyA := { ID := 0, Name := "A", Groups := [], Side := 0 },
    ArmyB := { ID := 1, Name := "B", Groups := [], Side := 1 },
    BattleTime := 100, TimeLimit := 50, IsActive := true, Winner := -1,
    store := fun _ => baseUnit }

theorem claim_C4_winConditions_witness :
    c4BM.IsActive = true ∧ c4BM.TimeLimit ≤ c4BM.BattleTime + 1 ∧
    (c4BM.Update 1).IsActive = false ∧ (c4BM.Update 1).Winner = 2 := by
  have hact : c4BM.IsActive = true := rfl
  have htime : c4BM.TimeLimit ≤ c4BM.BattleTime + 1 := by
    show (50 : ℝ) ≤ 100 + 1
    norm_num
  have h := (claim_C4_winConditions c4BM 1 hact).2.1 htime
  have hEq : Army.GetTotalHealth (c4BM.preWin 1).store (c4BM.preWin 1).ArmyA =
      Army.GetTotalHealth (c4BM.preWin 1).store (c4BM.preWin 1).ArmyB := rfl
  exact ⟨hact, htime, h.1, h.2.2.2.mpr hEq⟩

/-! ## C9 infrastructure: per-unit invariants and their preservation -/

/-- The per-unit invariant of the spec: HP clamped to [0, maxHP] and the alive
flag equivalent to positive HP. -/
def UnitInv (u : Unit) : Prop :=
  0 ≤ u.HP ∧ u.HP ≤ u.MaxHP ∧ (u.IsAlive = true ↔ 0 < u.HP)

/-- Two units with identical HP, max HP, alive and retreating state. -/
def sameVitals (u v : Unit) : Prop :=
  v.HP = u.HP ∧ v.MaxHP = u.MaxHP ∧ v.IsAlive = u.IsAlive ∧ v.IsRetreating = u.IsRetreating

theorem sameVitals_refl (u : Unit) : sameVitals u u := ⟨rfl, rfl, rfl, rfl⟩

theorem sameVitals_trans {u v w : Unit} (h1 : sameVitals u v) (h2 : sameVitals v w) :
    sameVitals u w := by
  obtain ⟨a1, b1, c1, d1⟩ := h1
  obtain ⟨a2, b2, c2, d2⟩ := h2
  exact ⟨a2.trans a1, b2.trans b1, c2.trans c1, d2.trans d1⟩

theorem UnitInv_of_sameVitals {u v : Unit} (h : sameVitals u v) (hu : UnitInv u) :
    UnitInv v := by
  obtain ⟨a, b, c, _⟩ := h
  exact ⟨a ▸ hu.1, by rw [a, b]; exact hu.2.1, by rw [a, c]; exact hu.2.2⟩

/-- Evolution of a single unit slot: the invariant is preserved, retreating is
one-way, and a unit never comes back to life. -/
def evolveU (u v : Unit) : Prop :=
  (UnitInv u → UnitInv v) ∧ (u.IsRetreating = true → v.IsRetreating = true) ∧
  (v.IsAlive = true → u.IsAlive = true)

theorem evolveU_refl (u : Unit) : evolveU u u := ⟨id, id, id⟩

theorem evolveU_trans {a b c : Unit} (h1 : evolveU a b) (h2 : evolveU b c) :
    evolveU a c :=
  ⟨fun h => h2.1 (h1.1 h), fun h => h2.2.1 (h1.2.1 h), fun h => h1.2.2 (h2.2.2 h)⟩

theorem evolveU_of_sameVitals {u v : Unit} (h : sameVitals u v) : evolveU u v :=
  ⟨UnitInv_of_sameVitals h, fun hr => h.2.2.2.trans hr, fun ha => h.2.2.1 ▸ ha⟩

theorem evolveU_startRetreating (u : Unit) (pt : Vector2D) :
    evolveU u (u.StartRetreating pt) := by
  unfold Unit.StartRetreating
  exact ⟨fun h => h, fun _ => rfl, fun h => h⟩

/-- `TakeDamage` with nonnegative damage preserves the invariant, never
revives, and keeps the retreat flag. -/
theorem TakeDamage_evolution (u : Unit) (d : ℤ) (_hd : 0 ≤ d) :
    (UnitInv u → UnitInv (u.TakeDamage d)) ∧
    (u.TakeDamage d).IsRetreating = u.IsRetreating ∧
    ((u.TakeDamage d).IsAlive = true → u.IsAlive = true) := by
  unfold Unit.TakeDamage
  by_cases hdead : u.IsAlive = false
  · rw [if_pos hdead]
    exact ⟨id, rfl, fun h => h⟩
  · rw [if_neg hdead]
    simp only []
    by_cases hz : u.HP - d ≤ 0
    · rw [if_pos hz]
      refine ⟨?_, rfl, ?_⟩
      · intro hu
        refine ⟨le_refl 0, ?_, ?_⟩
        · show (0 : ℤ) ≤ u.MaxHP
          exact hu.1.trans hu.2.1
        · show (false = true) ↔ 0 < (0 : ℤ)
          simp
      · intro h
        exact absurd h (by simp)
    · rw [if_neg hz]
      refine ⟨?_, rfl, fun h => h⟩
      intro hu
      refine ⟨?_, ?_, ?_⟩
      · show 0 ≤ u.HP - d
        omega
      · show u.HP - d ≤ u.MaxHP
        have := hu.2.1
        omega
      · show u.IsAlive = true ↔ 0 < u.HP - d
        constructor
        · intro _; omega
        · intro _; simpa using hdead

/-- The attacker after `Attack` keeps its vitals. -/
theorem Attack_attacker_sameVitals (u t : Unit) :
    sameVitals u ((u.Attack t).2.1) := by
  unfold Unit.Attack
  by_cases h1 : u.CanAttack = false ∨ t.IsAlive = false
  · rw [if_pos h1]; exact sameVitals_refl u
  · rw [if_neg h1]
    simp only []
    by_cases h2 : u.Position.Distance t.Position >
        u.Range + u.GetCollisionRadius + t.GetCollisionRadius
    · rw [if_pos h2]; exact sameVitals_refl u
    · rw [if_neg h2]; exact ⟨rfl, rfl, rfl, rfl⟩

/-- The target after `Attack` is either unchanged or took at least 1 damage. -/
theorem Attack_target_cases (u t : Unit) :
    (u.Attack t).2.2 = t ∨ ∃ d, 1 ≤ d ∧ (u.Attack t).2.2 = t.TakeDamage d := by
  unfold Unit.Attack
  by_cases h1 : u.CanAttack = false ∨ t.IsAlive = false
  · rw [if_pos h1]; exact Or.inl rfl
  · rw [if_neg h1]
    simp only []
    by_cases h2 : u.Position.Distance t.Position >
        u.Range + u.GetCollisionRadius + t.GetCollisionRadius
    · rw [if_pos h2]; exact Or.inl rfl
    · rw [if_neg h2]
      refine Or.inr ⟨_, ?_, rfl⟩
      by_cases h3 : u.AttackPower + (if u.type = "mage" then u.MagicPower else 0) -
          t.Defense < 1
      · rw [if_pos h3]
      · rw [if_neg h3]; omega

/-- `Unit.Update` changes only the cooldown, animation and position: HP, flags
and the movement target are untouched. -/
theorem UnitUpdate_fields (u : Unit) (dt : ℝ) :
    sameVitals u (u.Update dt) ∧ (u.Update dt).Target = u.Target := by
  unfold Unit.Update
  by_cases h1 : u.IsAlive = false
  · rw [if_pos h1]; exact ⟨sameVitals_refl u, rfl⟩
  · rw [if_neg h1]
    simp only []
    by_cases h2 : 0 < u.LastAttackTime
    · rw [if_pos h2]
      simp only []
      split
      · split
        · exact ⟨⟨rfl, rfl, rfl, rfl⟩, rfl⟩
        · exact ⟨⟨rfl, rfl, rfl, rfl⟩, rfl⟩
      · split
        · exact ⟨⟨rfl, rfl, rfl, rfl⟩, rfl⟩
        · exact ⟨⟨rfl, rfl, rfl, rfl⟩, rfl⟩
    · rw [if_neg h2]
      split
      · exact ⟨⟨rfl, rfl, rfl, rfl⟩, rfl⟩
      · exact ⟨sameVitals_refl u, rfl⟩

theorem moveTowardsTarget_fields (s : Store) (ai : AIBehavior) (u : Unit) (k : ℝ) :
    sameVitals u (moveTowardsTarget s ai u k) ∧
    (moveTowardsTarget s ai u k).Position = u.Position ∧
    (moveTowardsTarget s ai u k).AI = u.AI := by
  unfold moveTowardsTarget
  cases hte : ai.TargetEnemy with
  | none => exact ⟨sameVitals_refl u, rfl, rfl⟩
  | some te =>
    simp only []
    split
    · exact ⟨⟨rfl, rfl, rfl, rfl⟩, rfl, rfl⟩
    · exact ⟨⟨rfl, rfl, rfl, rfl⟩, rfl, rfl⟩

theorem moveAwayFromTarget_fields (s : Store) (ai : AIBehavior) (u : Unit) (k : ℝ) :
    sameVitals u (moveAwayFromTarget s ai u k) ∧
    (moveAwayFromTarget s ai u k).Position = u.Position ∧
    (moveAwayFromTarget s ai u k).AI = u.AI := by
  unfold moveAwayFromTarget
  cases hte : ai.TargetEnemy with
  | none => exact ⟨sameVitals_refl u, rfl, rfl⟩
  | some te =>
    simp only []
    split
    · exact ⟨⟨rfl, rfl, rfl, rfl⟩, rfl, rfl⟩
    · exact ⟨sameVitals_refl u, rfl, rfl⟩

theorem executeAction_fields (s : Store) (ai : AIBehavior) (u : Unit) :
    sameVitals u (executeAction s ai u) ∧
    (executeAction s ai u).Position = u.Position ∧
    (executeAction s ai u).AI = u.AI := by
  unfold executeAction
  cases ai.CurrentAction
  case Idle => exact ⟨⟨rfl, rfl, rfl, rfl⟩, rfl, rfl⟩
  case Approach => exact moveTowardsTarget_fields s ai u 1
  case Retreat => exact moveAwayFromTarget_fields s ai u 1
  case Attack => exact ⟨sameVitals_refl u, rfl, rfl⟩
  case Hold => exact ⟨⟨rfl, rfl, rfl, rfl⟩, rfl, rfl⟩

/-- `AIBehavior.Update` never changes HP, the alive/retreating flags, or the
position of the updated unit. -/
theorem AIBehaviorUpdate_fields (s : Store) (ai : AIBehavior) (u : Unit)
    (es : List Nat) (dt : ℝ) :
    sameVitals u (AIBehavior.Update s ai u es dt) ∧
    (AIBehavior.Update s ai u es dt).Position = u.Position := by
  unfold AIBehavior.Update
  by_cases h1 : u.IsAlive = false ∨ u.IsRetreating = true
  · rw [if_pos h1]; exact ⟨sameVitals_refl u, rfl⟩
  · rw [if_neg h1]
    simp only []
    by_cases h2 : ai.LastDecisionTime + dt < ai.DecisionCooldown
    · rw [if_pos h2]
      exact ⟨⟨rfl, rfl, rfl, rfl⟩, rfl⟩
    · rw [if_neg h2]
      cases hsel : selectTarget s u es with
      | none => exact ⟨⟨rfl, rfl, rfl, rfl⟩, rfl⟩
      | some te =>
        simp only []
        by_cases h3 : (s te).IsAlive = false
        · rw [if_pos h3]
          exact ⟨⟨rfl, rfl, rfl, rfl⟩, rfl⟩
        · rw [if_neg h3]
          set ai3 : AIBehavior := { ai with
            LastDecisionTime := 0
            TargetEnemy := some te
            CurrentAction := decideAction
              { ai with LastDecisionTime := 0, TargetEnemy := some te } u (s te)
              (u.Position.Distance (s te).Position) }
          have hstep : sameVitals u { u with AI := some ai3 } := ⟨rfl, rfl, rfl, rfl⟩
          have hexec := executeAction_fields s ai3 { u with AI := some ai3 }
          exact ⟨sameVitals_trans hstep hexec.1, hexec.2.1⟩

/-- Pointwise preservation of a reflexive-transitive unit relation through a
left fold over the store. -/
theorem foldl_store_rel {α : Type} (R : Unit → Unit → Prop)
    (hrefl : ∀ u, R u u) (htrans : ∀ {a b c : Unit}, R a b → R b c → R a c)
    (step : Store → α → Store)
    (hstep : ∀ (s : Store) (x : α) (j : Nat), R (s j) (step s x j)) :
    ∀ (l : List α) (s : Store) (j : Nat), R (s j) (l.foldl step s j) := by
  intro l
  induction l with
  | nil => intro s j; exact hrefl _
  | cons x xs ih =>
    intro s j
    rw [List.foldl_cons]
    exact htrans (hstep s x j) (ih (step s x) j)

/-- The AI pass over a list of unit ids preserves every unit's vitals and
position. -/
theorem updateAIList_fields (es : List Nat) (dt : ℝ) :
    ∀ (ids : List Nat) (s : Store) (j : Nat),
      sameVitals (s j) (updateAIList s ids es dt j) ∧
      (updateAIList s ids es dt j).Position = (s j).Position := by
  intro ids s j
  unfold updateAIList
  refine foldl_store_rel (fun u v => sameVitals u v ∧ v.Position = u.Position)
    (fun u => ⟨sameVitals_refl u, rfl⟩)
    (fun hab hbc => ⟨sameVitals_trans hab.1 hbc.1, hbc.2.trans hab.2⟩) _ ?_ ids s j
  intro s' i j'
  cases hai : (s' i).AI with
  | none => exact ⟨sameVitals_refl _, rfl⟩
  | some ai =>
    show sameVitals (s' j') (setU s' i (AIBehavior.Update s' ai (s' i) es dt) j') ∧
      (setU s' i (AIBehavior.Update s' ai (s' i) es dt) j').Position = (s' j').Position
    unfold setU
    by_cases hj : j' = i
    · rw [if_pos hj, hj]
      exact AIBehaviorUpdate_fields s' ai (s' i) es dt
    · rw [if_neg hj]
      exact ⟨sameVitals_refl _, rfl⟩

/-- The whole AI phase preserves every unit's vitals and position. -/
theorem updateAI_fields (s : Store) (aA aB : Army) (dt : ℝ) (j : Nat) :
    sameVitals (s j) (updateAI s aA aB dt j) ∧
    (updateAI s aA aB dt j).Position = (s j).Position := by
  unfold updateAI
  have h1 := updateAIList_fields (Army.GetAliveUnits s aB) dt
    (Army.GetAliveUnits s aA) s j
  have h2 := updateAIList_fields (Army.GetAliveUnits s aA) dt
    (Army.GetAliveUnits s aB)
    (updateAIList s (Army.GetAliveUnits s aA) (Army.GetAliveUnits s aB) dt) j
  exact ⟨sameVitals_trans h1.1 h2.1, h2.2.trans h1.2⟩

/-- `ResolveCollision` changes only positions. -/
theorem ResolveCollision_fields (u o : Unit) :
    (sameVitals u ((u.ResolveCollision o).1) ∧
      ((u.ResolveCollision o).1).Target = u.Target ∧
      ((u.ResolveCollision o).1).AI = u.AI) ∧
    (sameVitals o ((u.ResolveCollision o).2) ∧
      ((u.ResolveCollision o).2).Target = o.Target ∧
      ((u.ResolveCollision o).2).AI = o.AI) := by
  unfold Unit.ResolveCollision
  by_cases h1 : u.IsAlive = false ∨ o.IsAlive = false
  · rw [if_pos h1]
    exact ⟨⟨sameVitals_refl u, rfl, rfl⟩, sameVitals_refl o, rfl, rfl⟩
  · rw [if_neg h1]
    simp only []
    split
    · exact ⟨⟨⟨rfl, rfl, rfl, rfl⟩, rfl, rfl⟩, ⟨rfl, rfl, rfl, rfl⟩, rfl, rfl⟩
    · exact ⟨⟨sameVitals_refl u, rfl, rfl⟩, sameVitals_refl o, rfl, rfl⟩

/-- A single pair-collision step preserves vitals, targets and AI state. -/
theorem collidePair_fields (s : Store) (i k j : Nat) :
    sameVitals (s j) (collidePair s i k j) ∧
    (collidePair s i k j).Target = (s j).Target ∧
    (collidePair s i k j).AI = (s j).AI := by
  unfold collidePair
  by_cases hcol : (s i).IsCollidingWith (s k) = true
  · rw [if_pos hcol]
    unfold setU
    by_cases hjk : j = k
    · rw [if_pos hjk, hjk]
      have h := (ResolveCollision_fields (s i) (s k)).2
      exact ⟨h.1, h.2.1, h.2.2⟩
    · rw [if_neg hjk]
      by_cases hji : j = i
      · rw [if_pos hji, hji]
        have h := (ResolveCollision_fields (s i) (s k)).1
        exact ⟨h.1, h.2.1, h.2.2⟩
      · rw [if_neg hji]
        exact ⟨sameVitals_refl _, rfl, rfl⟩
  · rw [if_neg hcol]
    exact ⟨sameVitals_refl _, rfl, rfl⟩

/-- The collision phase preserves vitals, targets and AI state of every unit. -/
theorem handleCollisions_fields (s : Store) (aA aB : Army) (j : Nat) :
    sameVitals (s j) (handleCollisions s aA aB j) ∧
    (handleCollisions s aA aB j).Target = (s j).Target ∧
    (handleCollisions s aA aB j).AI = (s j).AI := by
  unfold handleCollisions
  exact foldl_store_rel (fun u v => sameVitals u v ∧ v.Target = u.Target ∧ v.AI = u.AI)
    (fun u => ⟨sameVitals_refl u, rfl, rfl⟩)
    (fun hab hbc => ⟨sameVitals_trans hab.1 hbc.1, hbc.2.1.trans hab.2.1,
      hbc.2.2.trans hab.2.2⟩)
    (fun acc p => collidePair acc p.1 p.2)
    (fun (s' : Store) (p : Nat × Nat) (j' : Nat) => collidePair_fields s' p.1 p.2 j')
    _ s j

/-- `TakeDamage` changes only HP and the alive flag. -/
theorem TakeDamage_fields (u : Unit) (d : ℤ) :
    (u.TakeDamage d).Position = u.Position ∧ (u.TakeDamage d).Target = u.Target ∧
    (u.TakeDamage d).AI = u.AI := by
  unfold Unit.TakeDamage
  by_cases h : u.IsAlive = false
  · rw [if_pos h]; exact ⟨rfl, rfl, rfl⟩
  · rw [if_neg h]
    simp only []
    split
    · exact ⟨rfl, rfl, rfl⟩
    · exact ⟨rfl, rfl, rfl⟩

/-- The attacker after `Attack` also keeps position, target and AI state. -/
theorem Attack_attacker_fields (u t : Unit) :
    ((u.Attack t).2.1).Position = u.Position ∧ ((u.Attack t).2.1).Target = u.Target ∧
    ((u.Attack t).2.1).AI = u.AI := by
  unfold Unit.Attack
  by_cases h1 : u.CanAttack = false ∨ t.IsAlive = false
  · rw [if_pos h1]; exact ⟨rfl, rfl, rfl⟩
  · rw [if_neg h1]
    simp only []
    by_cases h2 : u.Position.Distance t.Position >
        u.Range + u.GetCollisionRadius + t.GetCollisionRadius
    · rw [if_pos h2]; exact ⟨rfl, rfl, rfl⟩
    · rw [if_neg h2]; exact ⟨rfl, rfl, rfl⟩

/-- Pointwise effect of one store-level attack: evolution of vitals plus
preservation of positions, targets and AI state. -/
theorem combatAttack_fields (s : Store) (i t j : Nat) :
    evolveU (s j) (combatAttack s i t j) ∧
    (combatAttack s i t j).Position = (s j).Position ∧
    (combatAttack s i t j).Target = (s j).Target ∧
    (combatAttack s i t j).AI = (s j).AI := by
  unfold combatAttack
  unfold setU
  by_cases hjt : j = t
  · rw [if_pos hjt, hjt]
    rcases Attack_target_cases (s i) (s t) with hcase | ⟨d, hd, hcase⟩
    · rw [hcase]
      exact ⟨evolveU_refl _, rfl, rfl, rfl⟩
    · rw [hcase]
      have htd := TakeDamage_evolution (s t) d (by omega)
      have htf := TakeDamage_fields (s t) d
      exact ⟨⟨htd.1, fun hr => htd.2.1 ▸ hr, htd.2.2⟩, htf.1, htf.2.1, htf.2.2⟩
  · rw [if_neg hjt]
    by_cases hji : j = i
    · rw [if_pos hji, hji]
      have hv := Attack_attacker_sameVitals (s i) (s t)
      have hf := Attack_attacker_fields (s i) (s t)
      exact ⟨evolveU_of_sameVitals hv, hf.1, hf.2.1, hf.2.2⟩
    · rw [if_neg hji]
      exact ⟨evolveU_refl _, rfl, rfl, rfl⟩

/-- One side's combat pass: pointwise evolution plus preservation of positions,
targets and AI state. -/
theorem combatPass_fields (es : List Nat) :
    ∀ (att : List Nat) (s : Store) (j : Nat),
      evolveU (s j) (combatPass s att es j) ∧
      (combatPass s att es j).Position = (s j).Position ∧
      (combatPass s att es j).Target = (s j).Target ∧
      (combatPass s att es j).AI = (s j).AI := by
  intro att s j
  unfold combatPass
  refine foldl_store_rel
    (fun u v => evolveU u v ∧ v.Position = u.Position ∧ v.Target = u.Target ∧ v.AI = u.AI)
    (fun u => ⟨evolveU_refl u, rfl, rfl, rfl⟩)
    (fun hab hbc => ⟨evolveU_trans hab.1 hbc.1, hbc.2.1.trans hab.2.1,
      hbc.2.2.1.trans hab.2.2.1, hbc.2.2.2.trans hab.2.2.2⟩) _ ?_ att s j
  intro s' i j'
  by_cases hcan : (s' i).CanAttack = false
  · rw [if_pos hcan]
    exact ⟨evolveU_refl _, rfl, rfl, rfl⟩
  · rw [if_neg hcan]
    cases hft : findCombatTarget s' (s' i) es with
    | none => exact ⟨evolveU_refl _, rfl, rfl, rfl⟩
    | some t => exact combatAttack_fields s' i t j'

/-- The combat phase: pointwise evolution plus preservation of positions,
targets and AI state. -/
theorem processCombat_fields (s : Store) (aA aB : Army) (j : Nat) :
    evolveU (s j) (processCombat s aA aB j) ∧
    (processCombat s aA aB j).Position = (s j).Position ∧
    (processCombat s aA aB j).Target = (s j).Target ∧
    (processCombat s aA aB j).AI = (s j).AI := by
  unfold processCombat
  have h1 := combatPass_fields (Army.GetAliveUnits s aB) (Army.GetAliveUnits s aA) s j
  have h2 := combatPass_fields (Army.GetAliveUnits s aA) (Army.GetAliveUnits s aB)
    (combatPass s (Army.GetAliveUnits s aA) (Army.GetAliveUnits s aB)) j
  exact ⟨evolveU_trans h1.1 h2.1, h2.2.1.trans h1.2.1, h2.2.2.1.trans h1.2.2.1,
    h2.2.2.2.trans h1.2.2.2⟩

/-- `handleLeaderDeath` only sets retreat flags and targets: pointwise
evolution. -/
theorem handleLeaderDeath_evolveU (g : Group) (s : Store) (j : Nat) :
    evolveU (s j) (Group.handleLeaderDeath s g j) := by
  unfold Group.handleLeaderDeath
  refine foldl_store_rel evolveU evolveU_refl
    (fun hab hbc => evolveU_trans hab hbc) _ ?_ g.Members s j
  intro s' m j'
  by_cases hc : (s' m).IsAlive = true ∧ (s' m).IsRetreating = false
  · rw [if_pos hc]
    unfold setU
    by_cases hj : j' = m
    · rw [if_pos hj, hj]
      exact evolveU_startRetreating _ _
    · rw [if_neg hj]
      exact evolveU_refl _
  · rw [if_neg hc]
    exact evolveU_refl _

/-- The circle-formation write changes only movement targets. -/
theorem updateCircleFormation_fields (g : Group) (s : Store) (j : Nat) :
    sameVitals (s j) (Group.updateCircleFormation s g j) ∧
    (Group.updateCircleFormation s g j).Position = (s j).Position := by
  unfold Group.updateCircleFormation
  by_cases hempty : Group.getAliveMembers s g = []
  · rw [if_pos hempty]
    exact ⟨sameVitals_refl _, rfl⟩
  · rw [if_neg hempty]
    refine foldl_store_rel (fun u v => sameVitals u v ∧ v.Position = u.Position)
      (fun u => ⟨sameVitals_refl u, rfl⟩)
      (fun hab hbc => ⟨sameVitals_trans hab.1 hbc.1, hbc.2.trans hab.2⟩) _ ?_ _ s j
    intro s' p j'
    by_cases hr : (s' p.2).IsRetreating = true
    · rw [if_pos hr]
      exact ⟨sameVitals_refl _, rfl⟩
    · rw [if_neg hr]
      unfold setU
      by_cases hj : j' = p.2
      · rw [if_pos hj, hj]
        exact ⟨⟨rfl, rfl, rfl, rfl⟩, rfl⟩
      · rw [if_neg hj]
        exact ⟨sameVitals_refl _, rfl⟩

/-- `updateFormation` changes only movement targets. -/
theorem updateFormation_fields (g : Group) (s : Store) (j : Nat) :
    sameVitals (s j) (Group.updateFormation s g j) ∧
    (Group.updateFormation s g j).Position = (s j).Position := by
  unfold Group.updateFormation
  cases hl : g.Leader with
  | none => exact ⟨sameVitals_refl _, rfl⟩
  | some lid =>
    show sameVitals (s j)
        ((if (s lid).IsAlive = false then s else Group.updateCircleFormation s g) j) ∧
      ((if (s lid).IsAlive = false then s else Group.updateCircleFormation s g) j).Position =
        (s j).Position
    by_cases hd : (s lid).IsAlive = false
    · rw [if_pos hd]
      exact ⟨sameVitals_refl _, rfl⟩
    · rw [if_neg hd]
      exact updateCircleFormation_fields g s j

theorem setU_update_evolveU (s : Store) (lid : Nat) (dt : ℝ) (j : Nat) :
    evolveU (s j) (setU s lid ((s lid).Update dt) j) := by
  unfold setU
  by_cases hj : j = lid
  · rw [if_pos hj, hj]
    exact evolveU_of_sameVitals (UnitUpdate_fields _ dt).1
  · rw [if_neg hj]
    exact evolveU_refl _

theorem memberFold_evolveU (dt : ℝ) (ms : List Nat) (s : Store) (j : Nat) :
    evolveU (s j) ((ms.foldl (fun acc m =>
      if (acc m).IsAlive = true then setU acc m ((acc m).Update dt) else acc) s) j) := by
  refine foldl_store_rel evolveU evolveU_refl
    (fun hab hbc => evolveU_trans hab hbc) _ ?_ ms s j
  intro s' m j'
  by_cases hc : (s' m).IsAlive = true
  · rw [if_pos hc]
    exact setU_update_evolveU s' m dt j'
  · rw [if_neg hc]
    exact evolveU_refl _

/-- `Group.Update` evolves every unit slot. -/
theorem GroupUpdate_evolveU (g : Group) (dt : ℝ) (s : Store) (j : Nat) :
    evolveU (s j) ((Group.Update s g dt).1 j) := by
  unfold Group.Update
  split
  · exact handleLeaderDeath_evolveU g s j
  · split
    · exact handleLeaderDeath_evolveU g s j
    · exact evolveU_trans (setU_update_evolveU s _ dt j)
        (evolveU_trans (evolveU_of_sameVitals (updateFormation_fields _ _ j).1)
          (memberFold_evolveU dt _ _ j))

theorem armyGroupsFold_evolveU (dt : ℝ) :
    ∀ (gs : List Group) (init : Store × List Group) (j : Nat),
      evolveU (init.1 j)
        ((gs.foldl (fun (acc : Store × List Group) g =>
          ((Group.Update acc.1 g dt).1, acc.2 ++ [(Group.Update acc.1 g dt).2])) init).1 j) := by
  intro gs
  induction gs with
  | nil => intro init j; exact evolveU_refl _
  | cons g rest ih =>
    intro init j
    rw [List.foldl_cons]
    exact evolveU_trans (GroupUpdate_evolveU g dt init.1 j)
      (ih ((Group.Update init.1 g dt).1, init.2 ++ [(Group.Update init.1 g dt).2]) j)

/-- `Army.Update` evolves every unit slot. -/
theorem ArmyUpdate_evolveU (a : Army) (dt : ℝ) (s : Store) (j : Nat) :
    evolveU (s j) ((Army.Update s a dt).1 j) := by
  unfold Army.Update
  exact armyGroupsFold_evolveU dt a.Groups (s, []) j

/-- `checkWinConditions` never touches the unit store. -/
theorem checkWinConditions_store (b : BattleManager) :
    (checkWinConditions b).store = b.store := by
  unfold checkWinConditions
  split
  · rfl
  · split
    · rfl
    · split
      · rfl
      · split
        · rfl
        · rfl

/-- `BattleManager.Update` evolves every unit slot: the invariant is preserved,
retreating is one-way, and dead units stay dead. -/
theorem BMUpdate_evolveU (bm : BattleManager) (dt : ℝ) (j : Nat) :
    evolveU (bm.store j) ((bm.Update dt).store j) := by
  unfold BattleManager.Update
  by_cases h : bm.IsActive = false
  · rw [if_pos h]
    exact evolveU_refl _
  · rw [if_neg h, checkWinConditions_store]
    rcases hA : Army.Update bm.store bm.ArmyA dt with ⟨sA, aA⟩
    rcases hB : Army.Update sA bm.ArmyB dt with ⟨sB, aB⟩
    have hst : (bm.preWin dt).store =
        processCombat (handleCollisions (updateAI sB aA aB dt) aA aB) aA aB := by
      unfold BattleManager.preWin
      simp only []
      rw [hA]
      simp only []
      rw [hB]
    rw [hst]
    have e1 := ArmyUpdate_evolveU bm.ArmyA dt bm.store j
    rw [hA] at e1
    have e2 := ArmyUpdate_evolveU bm.ArmyB dt sA j
    rw [hB] at e2
    have e3 := (updateAI_fields sB aA aB dt j).1
    have e4 := (handleCollisions_fields (updateAI sB aA aB dt) aA aB j).1
    have e5 := (processCombat_fields (handleCollisions (updateAI sB aA aB dt) aA aB)
      aA aB j).1
    exact evolveU_trans e1 (evolveU_trans e2 (evolveU_trans (evolveU_of_sameVitals e3)
      (evolveU_trans (evolveU_of_sameVitals e4) e5)))

/-- Run a sequence of battle ticks. -/
def runUpdates (bm : BattleManager) : List ℝ → BattleManager
  | [] => bm
  | dt :: rest => runUpdates (bm.Update dt) rest

theorem runUpdates_evolveU (dts : List ℝ) : ∀ (bm : BattleManager) (j : Nat),
    evolveU (bm.store j) ((runUpdates bm dts).store j) := by
  induction dts with
  | nil => intro bm j; exact evolveU_refl _
  | cons dt rest ih =>
    intro bm j
    exact evolveU_trans (BMUpdate_evolveU bm dt j) (ih (bm.Update dt) j)

/-- C9.  Units created with positive HP satisfy the invariant, and across any
sequence of battle ticks every unit's HP stays within [0, maxHP], the alive
flag stays equivalent to positive HP (death is latched: a unit alive afterwards
was alive before), and the retreating flag is one-way. -/
theorem claim_C9_invariants (bm : BattleManager) (dts : List ℝ)
    (hinv : ∀ i, UnitInv (bm.store i)) :
    (∀ (id : Nat) (ty : String) (cfg : UnitTypeConfig) (lead : Bool) (gid aid : Nat),
      0 < cfg.HP → UnitInv (NewUnit id ty cfg lead gid aid)) ∧
    (∀ i, UnitInv ((runUpdates bm dts).store i)) ∧
    (∀ i, (bm.store i).IsRetreating = true →
      ((runUpdates bm dts).store i).IsRetreating = true) ∧
    (∀ i, ((runUpdates bm dts).store i).IsAlive = true →
      (bm.store i).IsAlive = true) := by
  refine ⟨?_, ?_, ?_, ?_⟩
  · intro id ty cfg lead gid aid hhp
    refine ⟨?_, ?_, ?_⟩
    · show (0 : ℤ) ≤ cfg.HP
      exact le_of_lt hhp
    · show cfg.HP ≤ cfg.HP
      exact le_refl _
    · show (true = true) ↔ 0 < cfg.HP
      exact ⟨fun _ => hhp, fun _ => rfl⟩
  · intro i
    exact (runUpdates_evolveU dts bm i).1 (hinv i)
  · intro i
    exact (runUpdates_evolveU dts bm i).2.1
  · intro i
    exact (runUpdates_evolveU dts bm i).2.2

/-- The default circular formation parameters. -/
def circleFormation50 : Formation := { type := .CircleFormation, Radius := 50, Spacing := 20 }

/-- A one-leader group used in concrete battle states. -/
def c9Group : Group :=
  { ID := 0, Leader := some 0, Members := [], Formation := circleFormation50, ArmyID := 0, targetPosition := ⟨0, 0⟩ }

/-- A one-unit battle state for the C9 witness. -/
def c9BM : BattleManager :=
  { ArmyA := { ID := 0, Name := "A", Groups := [c9Group], Side := 0 },
    ArmyB := { ID := 1, Name := "B", Groups := [], Side := 1 },
    BattleTime := 0, TimeLimit := 1000, IsActive := false, Winner := -1,
    store := fun _ => baseUnit }

theorem claim_C9_invariants_witness :
    (∀ i, UnitInv (c9BM.store i)) ∧
    (∀ i, UnitInv ((runUpdates c9BM [1/10]).store i)) ∧
    0 < (100 : ℤ) ∧
    UnitInv (NewUnit 1 "infantry"
      { Name := "u", HP := 100, Attack := 15, Defense := 10, Speed := 1,
        Range := 15, MagicPower := 0, Size := 1 } false 0 0) := by
  have hinv : ∀ i, UnitInv (c9BM.store i) := by
    intro i
    show UnitInv baseUnit
    refine ⟨?_, ?_, ?_⟩
    · show (0 : ℤ) ≤ 100
      norm_num
    · show (100 : ℤ) ≤ 100
      norm_num
    · show (true = true) ↔ 0 < (100 : ℤ)
      exact ⟨fun _ => by norm_num, fun _ => rfl⟩
  have h := claim_C9_invariants c9BM [1/10] hinv
  exact ⟨hinv, h.2.1, by norm_num,
    h.1 1 "infantry"
      { Name := "u", HP := 100, Attack := 15, Defense := 10, Speed := 1,
        Range := 15, MagicPower := 0, Size := 1 } false 0 0 (by norm_num)⟩

/-! ## C10 infrastructure: position freeze after leader death -/

/-- A fold whose steps never write slot `m` leaves slot `m` unchanged. -/
theorem foldl_store_skip {α : Type} (step : Store → α → Store) (m : Nat) :
    ∀ (l : List α) (s : Store), (∀ (s' : Store) (x : α), x ∈ l → step s' x m = s' m) →
      (l.foldl step s) m = s m := by
  intro l
  induction l with
  | nil => intro s _; rfl
  | cons x xs ih =>
    intro s h
    rw [List.foldl_cons]
    rw [ih (step s x) (fun s' y hy => h s' y (List.mem_cons_of_mem x hy))]
    exact h s x (List.mem_cons_self x xs)

/-- Components of a pair produced by `pairsAux` are members of the list. -/
theorem pairsAux_mem : ∀ (l : List Nat) (p : Nat × Nat),
    p ∈ pairsAux l → p.1 ∈ l ∧ p.2 ∈ l := by
  intro l
  induction l with
  | nil => intro p hp; exact absurd hp (List.not_mem_nil _)
  | cons x xs ih =>
    intro p hp
    unfold pairsAux at hp
    rcases List.mem_append.mp hp with hp | hp
    · rcases List.mem_map.mp hp with ⟨y, hy, rfl⟩
      exact ⟨List.mem_cons_self x xs, List.mem_cons_of_mem x hy⟩
    · have := ih p hp
      exact ⟨List.mem_cons_of_mem x this.1, List.mem_cons_of_mem x this.2⟩

/-- `StartRetreating` never moves a unit. -/
theorem StartRetreating_pos (u : Unit) (pt : Vector2D) :
    (u.StartRetreating pt).Position = u.Position := rfl

/-- `handleLeaderDeath` never moves any unit. -/
theorem handleLeaderDeath_pos (g : Group) (s : Store) (j : Nat) :
    (Group.handleLeaderDeath s g j).Position = (s j).Position := by
  unfold Group.handleLeaderDeath
  refine foldl_store_rel (fun u v => v.Position = u.Position) (fun _ => rfl)
    (fun hab hbc => hbc.trans hab) _ ?_ g.Members s j
  intro s' x j'
  by_cases hc : (s' x).IsAlive = true ∧ (s' x).IsRetreating = false
  · rw [if_pos hc]
    unfold setU
    by_cases hj : j' = x
    · rw [if_pos hj, hj]
      exact StartRetreating_pos _ _
    · rw [if_neg hj]
  · rw [if_neg hc]

/-- Dead or retreating: the state that excludes a unit from every alive-unit
query. -/
def unitDR (u : Unit) : Prop := u.IsAlive = false ∨ u.IsRetreating = true

theorem unitDR_evolveU {u v : Unit} (h : evolveU u v) (hdr : unitDR u) : unitDR v := by
  rcases hdr with hd | hr
  · left
    cases hv : v.IsAlive
    · rfl
    · exact absurd (h.2.2 hv) (by rw [hd]; simp)
  · right
    exact h.2.1 hr

/-- The retreat-issuing fold leaves every processed slot dead or retreating. -/
theorem retreatFold_DR :
    ∀ (ms : List Nat) (s : Store) (m : Nat), m ∈ ms →
      unitDR ((ms.foldl (fun acc x =>
        if (acc x).IsAlive = true ∧ (acc x).IsRetreating = false then
          setU acc x ((acc x).StartRetreating
            ⟨if (acc x).ArmyID = 1 then 1124 else -100, (acc x).Position.Y⟩)
        else acc) s) m) := by
  intro ms
  induction ms with
  | nil => intro s m hm; exact absurd hm (List.not_mem_nil _)
  | cons x xs ih =>
    intro s m hm
    rw [List.foldl_cons]
    rcases List.mem_cons.mp hm with rfl | hm
    · -- slot m is processed by this step; afterwards it is DR, and the rest of
      -- the fold only evolves it
      have hstep : unitDR ((if (s m).IsAlive = true ∧ (s m).IsRetreating = false then
          setU s m ((s m).StartRetreating
            ⟨if (s m).ArmyID = 1 then 1124 else -100, (s m).Position.Y⟩)
          else s) m) := by
        by_cases hc : (s m).IsAlive = true ∧ (s m).IsRetreating = false
        · rw [if_pos hc]
          unfold setU
          rw [if_pos rfl]
          right
          rfl
        · rw [if_neg hc]
          rcases Decidable.not_and_iff_or_not.mp hc with h | h
          · left
            cases hv : (s m).IsAlive
            · rfl
            · exact absurd hv h
          · right
            cases hv : (s m).IsRetreating
            · exact absurd hv h
            · rfl
      refine unitDR_evolveU ?_ hstep
      refine foldl_store_rel evolveU evolveU_refl
        (fun hab hbc => evolveU_trans hab hbc) _ ?_ xs _ m
      intro s' y j'
      by_cases hc : (s' y).IsAlive = true ∧ (s' y).IsRetreating = false
      · rw [if_pos hc]
        unfold setU
        by_cases hj : j' = y
        · rw [if_pos hj, hj]
          exact evolveU_startRetreating _ _
        · rw [if_neg hj]
          exact evolveU_refl _
      · rw [if_neg hc]
        exact evolveU_refl _
    · exact ih _ m hm

/-- After `handleLeaderDeath`, every member of the group is dead or
retreating. -/
theorem handleLeaderDeath_DR (g : Group) (s : Store) (m : Nat)
    (hm : m ∈ g.Members) :
    unitDR (Group.handleLeaderDeath s g m) := by
  unfold Group.handleLeaderDeath
  exact retreatFold_DR g.Members s m hm

theorem setU_skip (s : Store) (i : Nat) (u : Unit) (j : Nat) (h : j ≠ i) :
    setU s i u j = s j := by
  unfold setU
  rw [if_neg h]

/-- With a present leader, a group's unit list is the leader followed by the
members. -/
theorem GetAllUnits_some (g : Group) (lid : Nat) (hl : g.Leader = some lid) :
    Group.GetAllUnits g = lid :: g.Members := by
  unfold Group.GetAllUnits
  rw [hl]
  rfl

/-- The circle-formation write does not touch slots outside the member list. -/
theorem updateCircleFormation_skip (s : Store) (g : Group) (m : Nat)
    (hm : m ∉ g.Members) : Group.updateCircleFormation s g m = s m := by
  unfold Group.updateCircleFormation
  by_cases he : Group.getAliveMembers s g = []
  · rw [if_pos he]
  · rw [if_neg he]
    refine foldl_store_skip _ m _ s ?_
    intro s' p hp
    have hp2 : p.2 ∈ Group.getAliveMembers s g := by
      have := List.mem_enum_iff_getElem?.mp hp
      exact List.getElem?_mem this
    have hmem : p.2 ∈ g.Members := (List.mem_filter.mp hp2).1
    have hne : m ≠ p.2 := fun h => hm (h ▸ hmem)
    by_cases hr : (s' p.2).IsRetreating = true
    · rw [if_pos hr]
    · rw [if_neg hr]
      exact setU_skip _ _ _ _ hne

/-- `updateFormation` does not touch slots outside the member list. -/
theorem updateFormation_skip (s : Store) (g : Group) (m : Nat)
    (hm : m ∉ g.Members) : Group.updateFormation s g m = s m := by
  unfold Group.updateFormation
  cases hl : g.Leader with
  | none => rfl
  | some lid =>
    show (if (s lid).IsAlive = false then s else Group.updateCircleFormation s g) m = s m
    by_cases hd : (s lid).IsAlive = false
    · rw [if_pos hd]
    · rw [if_neg hd]
      exact updateCircleFormation_skip s g m hm

/-- The member-update fold does not touch slots outside the member list. -/
theorem memberFold_skip (dt : ℝ) (ms : List Nat) (s : Store) (m : Nat) (hm : m ∉ ms) :
    (ms.foldl (fun acc x =>
      if (acc x).IsAlive = true then setU acc x ((acc x).Update dt) else acc) s) m = s m := by
  refine foldl_store_skip _ m ms s ?_
  intro s' x hx
  have hne : m ≠ x := fun h => hm (h ▸ hx)
  by_cases hc : (s' x).IsAlive = true
  · rw [if_pos hc]
    exact setU_skip _ _ _ _ hne
  · rw [if_neg hc]

/-- `Group.Update` leaves the position of any slot that is outside the group,
or whose group has a dead leader, unchanged. -/
theorem GroupUpdate_pos_preserved (g : Group) (dt : ℝ) (s : Store) (m : Nat)
    (h : m ∉ Group.GetAllUnits g ∨
      ∃ lid, g.Leader = some lid ∧ (s lid).IsAlive = false) :
    (((Group.Update s g dt).1) m).Position = (s m).Position := by
  unfold Group.Update
  split
  · exact handleLeaderDeath_pos g s m
  · next lid hl =>
    by_cases hd : (s lid).IsAlive = false
    · rw [if_pos hd]
      exact handleLeaderDeath_pos g s m
    · rw [if_neg hd]
      have hnot : m ∉ Group.GetAllUnits g := by
        rcases h with h | ⟨lid', hl', hd'⟩
        · exact h
        · rw [hl] at hl'
          cases hl'
          exact absurd hd' hd
      rw [GetAllUnits_some g lid hl] at hnot
      have hm_lid : m ≠ lid := fun hcon => hnot (hcon ▸ List.mem_cons_self lid g.Members)
      have hm_mem : m ∉ g.Members := fun hcon => hnot (List.mem_cons_of_mem lid hcon)
      simp only []
      rw [memberFold_skip dt _ _ m hm_mem]
      rw [updateFormation_skip]
      · rw [setU_skip _ _ _ _ hm_lid]
      · exact hm_mem

/-- With a dead leader, `Group.Update` leaves every member dead or
retreating. -/
theorem GroupUpdate_DR (g : Group) (dt : ℝ) (s : Store) (lid m : Nat)
    (hl : g.Leader = some lid) (hd : (s lid).IsAlive = false) (hm : m ∈ g.Members) :
    unitDR (((Group.Update s g dt).1) m) := by
  unfold Group.Update
  split
  · exact handleLeaderDeath_DR g s m hm
  · next lid' heq =>
    rw [heq] at hl
    injection hl with hl
    subst hl
    rw [if_pos hd]
    exact handleLeaderDeath_DR g s m hm

/-- The army fold freezes the position of a slot that every group either does
not contain or governs with a dead leader. -/
theorem armyFold_freezePos (dt : ℝ) :
    ∀ (gs : List Group) (init : Store × List Group) (m : Nat),
      (∀ g'' ∈ gs, m ∉ Group.GetAllUnits g'' ∨
        ∃ lid, g''.Leader = some lid ∧ (init.1 lid).IsAlive = false) →
      (((gs.foldl (fun (acc : Store × List Group) g =>
        ((Group.Update acc.1 g dt).1, acc.2 ++ [(Group.Update acc.1 g dt).2])) init).1) m).Position
        = (init.1 m).Position := by
  intro gs
  induction gs with
  | nil => intro init m _; rfl
  | cons g rest ih =>
    intro init m h
    rw [List.foldl_cons]
    have hstep := GroupUpdate_pos_preserved g dt init.1 m (h g (List.mem_cons_self _ _))
    have hcond : ∀ g'' ∈ rest, m ∉ Group.GetAllUnits g'' ∨
        ∃ lid, g''.Leader = some lid ∧
          ((((Group.Update init.1 g dt).1, init.2 ++ [(Group.Update init.1 g dt).2]) :
            Store × List Group).1 lid).IsAlive = false := by
      intro g'' hg''
      rcases h g'' (List.mem_cons_of_mem g hg'') with h' | ⟨lid, hl, hd⟩
      · exact Or.inl h'
      · refine Or.inr ⟨lid, hl, ?_⟩
        have he := GroupUpdate_evolveU g dt init.1 lid
        cases hv : ((Group.Update init.1 g dt).1 lid).IsAlive
        · rfl
        · exact absurd (he.2.2 hv) (by rw [hd]; simp)
    rw [ih ((Group.Update init.1 g dt).1, init.2 ++ [(Group.Update init.1 g dt).2]) m hcond]
    exact hstep

/-- The army fold leaves the members of a dead-leader group dead or
retreating. -/
theorem armyFold_DR (dt : ℝ) :
    ∀ (gs : List Group) (init : Store × List Group) (g : Group) (lid m : Nat),
      g ∈ gs → g.Leader = some lid → (init.1 lid).IsAlive = false → m ∈ g.Members →
      unitDR (((gs.foldl (fun (acc : Store × List Group) g =>
        ((Group.Update acc.1 g dt).1, acc.2 ++ [(Group.Update acc.1 g dt).2])) init).1) m) := by
  intro gs
  induction gs with
  | nil => intro init g lid m hg; exact absurd hg (List.not_mem_nil _)
  | cons g0 rest ih =>
    intro init g lid m hg hl hd hm
    rw [List.foldl_cons]
    rcases List.mem_cons.mp hg with rfl | hg
    · have hdr := GroupUpdate_DR g dt init.1 lid m hl hd hm
      refine unitDR_evolveU ?_ hdr
      exact armyGroupsFold_evolveU dt rest
        ((Group.Update init.1 g dt).1, init.2 ++ [(Group.Update init.1 g dt).2]) m
    · refine ih ((Group.Update init.1 g0 dt).1, init.2 ++ [(Group.Update init.1 g0 dt).2])
        g lid m hg hl ?_ hm
      have he := GroupUpdate_evolveU g0 dt init.1 lid
      cases hv : ((Group.Update init.1 g0 dt).1 lid).IsAlive
      · rfl
      · exact absurd (he.2.2 hv) (by rw [hd]; simp)

/-- `Group.Update` preserves the group's leader and member ids. -/
theorem GroupUpdate_struct (s : Store) (g : Group) (dt : ℝ) :
    ((Group.Update s g dt).2).Leader = g.Leader ∧
    ((Group.Update s g dt).2).Members = g.Members := by
  unfold Group.Update
  split
  · exact ⟨rfl, rfl⟩
  · split
    · exact ⟨rfl, rfl⟩
    · exact ⟨rfl, rfl⟩

/-- The army fold appends structurally equivalent groups. -/
theorem armyFold_groups (dt : ℝ) :
    ∀ (gs : List Group) (init : Store × List Group),
      ∃ out, ((gs.foldl (fun (acc : Store × List Group) g =>
        ((Group.Update acc.1 g dt).1, acc.2 ++ [(Group.Update acc.1 g dt).2])) init).2
          = init.2 ++ out ∧
        List.Forall₂ (fun g g' => g'.Leader = g.Leader ∧ g'.Members = g.Members) gs out) := by
  intro gs
  induction gs with
  | nil => intro init; exact ⟨[], by simp, List.Forall₂.nil⟩
  | cons g rest ih =>
    intro init
    rw [List.foldl_cons]
    obtain ⟨out, hout, hrel⟩ :=
      ih ((Group.Update init.1 g dt).1, init.2 ++ [(Group.Update init.1 g dt).2])
    refine ⟨(Group.Update init.1 g dt).2 :: out, ?_, ?_⟩
    · rw [hout]
      simp
    · exact List.Forall₂.cons
        ⟨(GroupUpdate_struct init.1 g dt).1, (GroupUpdate_struct init.1 g dt).2⟩ hrel

/-- A structurally equivalent group has the same unit-id list. -/
theorem GetAllUnits_struct {g g' : Group}
    (h : g'.Leader = g.Leader ∧ g'.Members = g.Members) :
    Group.GetAllUnits g' = Group.GetAllUnits g := by
  unfold Group.GetAllUnits
  rw [h.1, h.2]

theorem forall₂_mem {R : Group → Group → Prop} :
    ∀ {gs out : List Group}, List.Forall₂ R gs out →
      ∀ g ∈ gs, ∃ g', g' ∈ out ∧ R g g' := by
  intro gs out h
  induction h with
  | nil => intro g hg; exact absurd hg (List.not_mem_nil _)
  | cons hR _ ih =>
    intro g hg
    rcases List.mem_cons.mp hg with rfl | hg
    · exact ⟨_, List.mem_cons_self _ _, hR⟩
    · obtain ⟨g', hg', hR'⟩ := ih g hg
      exact ⟨g', List.mem_cons_of_mem _ hg', hR'⟩

theorem foldl_append_eq (f : Group → List Nat) :
    ∀ (gs : List Group) (init : List Nat),
      gs.foldl (fun acc g => acc ++ f g) init = init ++ (gs.map f).flatten := by
  intro gs
  induction gs with
  | nil => intro init; simp
  | cons g rest ih =>
    intro init
    rw [List.foldl_cons, ih, List.map_cons, List.flatten_cons, List.append_assoc]

/-- `Army.GetAllUnits` is the concatenation of the groups' unit lists. -/
theorem ArmyGetAllUnits_join (a : Army) :
    Army.GetAllUnits a = (a.Groups.map Group.GetAllUnits).flatten := by
  unfold Army.GetAllUnits
  rw [foldl_append_eq]
  rfl

/-- Equal per-group unit lists give equal army folds. -/
theorem armyUnits_congr :
    ∀ {gs out : List Group},
      List.Forall₂ (fun g g' => g'.Leader = g.Leader ∧ g'.Members = g.Members) gs out →
      (out.map Group.GetAllUnits).flatten = (gs.map Group.GetAllUnits).flatten := by
  intro gs out h
  induction h with
  | nil => rfl
  | cons hR _ ih =>
    rw [List.map_cons, List.map_cons, List.flatten_cons, List.flatten_cons, ih,
      GetAllUnits_struct hR]

/-- `Army.Update` does not change the army's unit-id list. -/
theorem ArmyUpdate_ids (a : Army) (dt : ℝ) (s : Store) :
    Army.GetAllUnits ((Army.Update s a dt).2) = Army.GetAllUnits a := by
  obtain ⟨out, hout, hrel⟩ := armyFold_groups dt a.Groups (s, [])
  rw [ArmyGetAllUnits_join, ArmyGetAllUnits_join]
  have hgroups : ((Army.Update s a dt).2).Groups = out := by
    show ((a.Groups.foldl (fun (acc : Store × List Group) g =>
      ((Group.Update acc.1 g dt).1, acc.2 ++ [(Group.Update acc.1 g dt).2])) ((s, []) :
        Store × List Group)).2) = out
    rw [hout]
    rfl
  rw [hgroups]
  exact armyUnits_congr hrel

/-- Under a no-duplicate flattened id list, a unit id pins down its group. -/
theorem flat_nodup_unique :
    ∀ (gs : List Group) (m : Nat), ((gs.map Group.GetAllUnits).flatten).Nodup →
      ∀ g1, g1 ∈ gs → m ∈ Group.GetAllUnits g1 →
      ∀ g2, g2 ∈ gs → m ∈ Group.GetAllUnits g2 → g1 = g2 := by
  intro gs
  induction gs with
  | nil => intro m _ g1 h1; exact absurd h1 (List.not_mem_nil _)
  | cons x rest ih =>
    intro m hnd g1 hg1 hm1 g2 hg2 hm2
    rw [List.map_cons, List.flatten_cons] at hnd
    have hparts := List.nodup_append.mp hnd
    have hmemrest : ∀ g', g' ∈ rest → m ∈ Group.GetAllUnits g' →
        m ∈ (rest.map Group.GetAllUnits).flatten := by
      intro g' hg' hm'
      exact List.mem_flatten.mpr ⟨Group.GetAllUnits g', List.mem_map_of_mem _ hg', hm'⟩
    rcases List.mem_cons.mp hg1 with h1 | h1
    · rcases List.mem_cons.mp hg2 with h2 | h2
      · rw [h1, h2]
      · exact absurd (hmemrest g2 h2 hm2)
          (by rw [h1] at hm1; exact hparts.2.2 hm1)
    · rcases List.mem_cons.mp hg2 with h2 | h2
      · exact absurd (hmemrest g1 h1 hm1)
          (by rw [h2] at hm2; exact hparts.2.2 hm2)
      · exact ih m hparts.2.1 g1 h1 hm1 g2 h2 hm2

theorem unitDR_sameVitals {u v : Unit} (h : sameVitals u v) (hdr : unitDR u) :
    unitDR v := by
  rcases hdr with hd | hr
  · left; rw [h.2.2.1, hd]
  · right; rw [h.2.2.2, hr]

/-- A dead-or-retreating unit is excluded from `GetAliveUnits`. -/
theorem notin_alive_of_DR (s : Store) (a : Army) (m : Nat) (h : unitDR (s m)) :
    m ∉ Army.GetAliveUnits s a := by
  intro hmem
  have hp := (List.mem_filter.mp hmem).2
  rcases h with hd | hr
  · rw [hd] at hp; simp at hp
  · rw [hr] at hp; simp at hp

theorem collidePair_skip (s : Store) (i k m : Nat) (h1 : i ≠ m) (h2 : k ≠ m) :
    collidePair s i k m = s m := by
  unfold collidePair
  split
  · rw [setU_skip _ _ _ _ (Ne.symm h2), setU_skip _ _ _ _ (Ne.symm h1)]
  · rfl

/-- The collision phase does not touch a unit that is not in the combined
alive-unit list. -/
theorem handleCollisions_skip (s : Store) (aA aB : Army) (m : Nat)
    (hm : m ∉ Army.GetAliveUnits s aA ++ Army.GetAliveUnits s aB) :
    handleCollisions s aA aB m = s m := by
  unfold handleCollisions
  refine foldl_store_skip _ m _ s ?_
  intro s' p hp
  have hmem := pairsAux_mem _ p hp
  have h1 : p.1 ≠ m := fun h => hm (h ▸ hmem.1)
  have h2 : p.2 ≠ m := fun h => hm (h ▸ hmem.2)
  exact collidePair_skip s' p.1 p.2 m h1 h2

/-- `checkWinConditions` never touches the armies. -/
theorem checkWinConditions_armies (b : BattleManager) :
    (checkWinConditions b).ArmyA = b.ArmyA ∧ (checkWinConditions b).ArmyB = b.ArmyB := by
  unfold checkWinConditions
  split
  · exact ⟨rfl, rfl⟩
  · split
    · exact ⟨rfl, rfl⟩
    · split
      · exact ⟨rfl, rfl⟩
      · split
        · exact ⟨rfl, rfl⟩
        · exact ⟨rfl, rfl⟩

/-- `Army.Update` returns structurally equivalent groups. -/
theorem ArmyUpdate_groups (a : Army) (dt : ℝ) (s : Store) :
    List.Forall₂ (fun g g' => g'.Leader = g.Leader ∧ g'.Members = g.Members)
      a.Groups ((Army.Update s a dt).2).Groups := by
  obtain ⟨out, hout, hrel⟩ := armyFold_groups dt a.Groups (s, [])
  have hgroups : ((Army.Update s a dt).2).Groups = out := by
    show ((a.Groups.foldl (fun (acc : Store × List Group) g =>
      ((Group.Update acc.1 g dt).1, acc.2 ++ [(Group.Update acc.1 g dt).2])) ((s, []) :
        Store × List Group)).2) = out
    rw [hout]
    rfl
  rw [hgroups]
  exact hrel

/-- One tick freezes the position of every member of a dead-leader group. -/
theorem BMUpdate_freeze (bm : BattleManager) (dt : ℝ) (g : Group) (lid m : Nat)
    (hg : g ∈ bm.ArmyA.Groups ∨ g ∈ bm.ArmyB.Groups)
    (hlead : g.Leader = some lid)
    (hdead : (bm.store lid).IsAlive = false)
    (hm : m ∈ g.Members)
    (hnodup : (Army.GetAllUnits bm.ArmyA ++ Army.GetAllUnits bm.ArmyB).Nodup) :
    ((bm.Update dt).store m).Position = (bm.store m).Position := by
  unfold BattleManager.Update
  by_cases hact : bm.IsActive = false
  · rw [if_pos hact]
  · rw [if_neg hact, checkWinConditions_store]
    rcases hA : Army.Update bm.store bm.ArmyA dt with ⟨sA, aA⟩
    rcases hB : Army.Update sA bm.ArmyB dt with ⟨sB, aB⟩
    have hst : (bm.preWin dt).store =
        processCombat (handleCollisions (updateAI sB aA aB dt) aA aB) aA aB := by
      unfold BattleManager.preWin
      simp only []
      rw [hA]
      simp only []
      rw [hB]
    rw [hst]
    have hmem_units : m ∈ Group.GetAllUnits g := by
      rw [GetAllUnits_some g lid hlead]
      exact List.mem_cons_of_mem _ hm
    rw [ArmyGetAllUnits_join, ArmyGetAllUnits_join] at hnodup
    have hparts := List.nodup_append.mp hnodup
    suffices hkey : (sA m).Position = (bm.store m).Position ∧
        (sB m).Position = (sA m).Position ∧ unitDR (sB m) by
      obtain ⟨hfA, hfB, hdrB⟩ := hkey
      have hAI := updateAI_fields sB aA aB dt m
      have hdr3 : unitDR (updateAI sB aA aB dt m) := unitDR_sameVitals hAI.1 hdrB
      have hnotin : m ∉ Army.GetAliveUnits (updateAI sB aA aB dt) aA ++
          Army.GetAliveUnits (updateAI sB aA aB dt) aB := by
        intro hmem
        rcases List.mem_append.mp hmem with h | h
        · exact notin_alive_of_DR _ aA m hdr3 h
        · exact notin_alive_of_DR _ aB m hdr3 h
      have hColl : handleCollisions (updateAI sB aA aB dt) aA aB m =
          updateAI sB aA aB dt m := handleCollisions_skip _ aA aB m hnotin
      have hPC := (processCombat_fields (handleCollisions (updateAI sB aA aB dt) aA aB)
        aA aB m).2.1
      rw [hPC, hColl, hAI.2, hfB, hfA]
    have e1lid := ArmyUpdate_evolveU bm.ArmyA dt bm.store lid
    rw [hA] at e1lid
    have hdeadA : (sA lid).IsAlive = false := by
      cases hv : (sA lid).IsAlive
      · rfl
      · exact absurd (e1lid.2.2 hv) (by rw [hdead]; simp)
    rcases hg with hgA | hgB
    · -- the group lives in army A
      have hmA : m ∈ (bm.ArmyA.Groups.map Group.GetAllUnits).flatten :=
        List.mem_flatten.mpr ⟨_, List.mem_map_of_mem _ hgA, hmem_units⟩
      have hcondA : ∀ g'' ∈ bm.ArmyA.Groups, m ∉ Group.GetAllUnits g'' ∨
          ∃ lid', g''.Leader = some lid' ∧
            ((((bm.store, []) : Store × List Group)).1 lid').IsAlive = false := by
        intro g'' hg''
        by_cases hin : m ∈ Group.GetAllUnits g''
        · have hgg : g'' = g := flat_nodup_unique bm.ArmyA.Groups m hparts.1
            g'' hg'' hin g hgA hmem_units
          rw [hgg]
          exact Or.inr ⟨lid, hlead, hdead⟩
        · exact Or.inl hin
      have hfA : (sA m).Position = (bm.store m).Position := by
        have h := armyFold_freezePos dt bm.ArmyA.Groups (bm.store, []) m hcondA
        have h' : ((Army.Update bm.store bm.ArmyA dt).1 m).Position =
            (bm.store m).Position := h
        rw [hA] at h'
        exact h'
      have hdrA : unitDR (sA m) := by
        have h := armyFold_DR dt bm.ArmyA.Groups (bm.store, []) g lid m hgA hlead hdead hm
        have h' : unitDR ((Army.Update bm.store bm.ArmyA dt).1 m) := h
        rw [hA] at h'
        exact h'
      have hcondB : ∀ g'' ∈ bm.ArmyB.Groups, m ∉ Group.GetAllUnits g'' ∨
          ∃ lid', g''.Leader = some lid' ∧
            ((((sA, []) : Store × List Group)).1 lid').IsAlive = false := by
        intro g'' hg''
        refine Or.inl (fun hin => ?_)
        exact hparts.2.2 hmA (List.mem_flatten.mpr ⟨_, List.mem_map_of_mem _ hg'', hin⟩)
      have hfB : (sB m).Position = (sA m).Position := by
        have h := armyFold_freezePos dt bm.ArmyB.Groups (sA, []) m hcondB
        have h' : ((Army.Update sA bm.ArmyB dt).1 m).Position = (sA m).Position := h
        rw [hB] at h'
        exact h'
      have hdrB : unitDR (sB m) := by
        have e2 := ArmyUpdate_evolveU bm.ArmyB dt sA m
        rw [hB] at e2
        exact unitDR_evolveU e2 hdrA
      exact ⟨hfA, hfB, hdrB⟩
    · -- the group lives in army B
      have hmB : m ∈ (bm.ArmyB.Groups.map Group.GetAllUnits).flatten :=
        List.mem_flatten.mpr ⟨_, List.mem_map_of_mem _ hgB, hmem_units⟩
      have hcondA : ∀ g'' ∈ bm.ArmyA.Groups, m ∉ Group.GetAllUnits g'' ∨
          ∃ lid', g''.Leader = some lid' ∧
            ((((bm.store, []) : Store × List Group)).1 lid').IsAlive = false := by
        intro g'' hg''
        refine Or.inl (fun hin => ?_)
        exact hparts.2.2 (List.mem_flatten.mpr ⟨_, List.mem_map_of_mem _ hg'', hin⟩) hmB
      have hfA : (sA m).Position = (bm.store m).Position := by
        have h := armyFold_freezePos dt bm.ArmyA.Groups (bm.store, []) m hcondA
        have h' : ((Army.Update bm.store bm.ArmyA dt).1 m).Position =
            (bm.store m).Position := h
        rw [hA] at h'
        exact h'
      have hcondB : ∀ g'' ∈ bm.ArmyB.Groups, m ∉ Group.GetAllUnits g'' ∨
          ∃ lid', g''.Leader = some lid' ∧
            ((((sA, []) : Store × List Group)).1 lid').IsAlive = false := by
        intro g'' hg''
        by_cases hin : m ∈ Group.GetAllUnits g''
        · have hgg : g'' = g := flat_nodup_unique bm.ArmyB.Groups m hparts.2.1
            g'' hg'' hin g hgB hmem_units
          rw [hgg]
          exact Or.inr ⟨lid, hlead, hdeadA⟩
        · exact Or.inl hin
      have hfB : (sB m).Position = (sA m).Position := by
        have h := armyFold_freezePos dt bm.ArmyB.Groups (sA, []) m hcondB
        have h' : ((Army.Update sA bm.ArmyB dt).1 m).Position = (sA m).Position := h
        rw [hB] at h'
        exact h'
      have hdrB : unitDR (sB m) := by
        have h := armyFold_DR dt bm.ArmyB.Groups (sA, []) g lid m hgB hlead hdeadA hm
        have h' : unitDR ((Army.Update sA bm.ArmyB dt).1 m) := h
        rw [hB] at h'
        exact h'
      exact ⟨hfA, hfB, hdrB⟩

theorem BMUpdate_inactive (bm : BattleManager) (dt : ℝ) (h : bm.IsActive = false) :
    bm.Update dt = bm := by
  unfold BattleManager.Update
  rw [if_pos h]

theorem dead_of_evolveU {u v : Unit} (h : evolveU u v) (hd : u.IsAlive = false) :
    v.IsAlive = false := by
  cases hv : v.IsAlive
  · rfl
  · exact absurd (h.2.2 hv) (by rw [hd]; simp)

theorem preWin_armies (bm : BattleManager) (dt : ℝ) :
    (bm.preWin dt).ArmyA = (Army.Update bm.store bm.ArmyA dt).2 ∧
    (bm.preWin dt).ArmyB =
      (Army.Update (Army.Update bm.store bm.ArmyA dt).1 bm.ArmyB dt).2 :=
  ⟨rfl, rfl⟩

theorem BMUpdate_armies (bm : BattleManager) (dt : ℝ) (hact : ¬ bm.IsActive = false) :
    (bm.Update dt).ArmyA = (Army.Update bm.store bm.ArmyA dt).2 ∧
    (bm.Update dt).ArmyB =
      (Army.Update (Army.Update bm.store bm.ArmyA dt).1 bm.ArmyB dt).2 := by
  unfold BattleManager.Update
  rw [if_neg hact]
  rw [(checkWinConditions_armies _).1, (checkWinConditions_armies _).2]
  exact preWin_armies bm dt

/-- C10: once a group's leader is dead, the positions of the group's members
are frozen: every subsequent `BattleManager.Update` leaves each member's
`Position` unchanged, because `Group.Update` only re-issues retreat orders
(never calling the member's own update), and retreating units are excluded
from the alive-unit lists consumed by the AI, collision and combat passes.
Unit ids are assumed globally unique across the two armies. -/
theorem claim_C10_leaderDeathFreeze (dts : List ℝ) :
    ∀ (bm : BattleManager) (g : Group) (lid : Nat),
      (g ∈ bm.ArmyA.Groups ∨ g ∈ bm.ArmyB.Groups) →
      g.Leader = some lid →
      (bm.store lid).IsAlive = false →
      (Army.GetAllUnits bm.ArmyA ++ Army.GetAllUnits bm.ArmyB).Nodup →
      ∀ m ∈ g.Members,
        ((runUpdates bm dts).store m).Position = (bm.store m).Position := by
  induction dts with
  | nil =>
    intro bm g lid _ _ _ _ m _
    rfl
  | cons dt rest ih =>
    intro bm g lid hg hlead hdead hnodup m hm
    show ((runUpdates (bm.Update dt) rest).store m).Position = (bm.store m).Position
    by_cases hact : bm.IsActive = false
    · rw [BMUpdate_inactive bm dt hact]
      exact ih bm g lid hg hlead hdead hnodup m hm
    · have htick := BMUpdate_freeze bm dt g lid m hg hlead hdead hm hnodup
      have hdead' : ((bm.Update dt).store lid).IsAlive = false :=
        dead_of_evolveU (BMUpdate_evolveU bm dt lid) hdead
      have harm := BMUpdate_armies bm dt hact
      have hnodup' : (Army.GetAllUnits (bm.Update dt).ArmyA ++
          Army.GetAllUnits (bm.Update dt).ArmyB).Nodup := by
        rw [harm.1, harm.2, ArmyUpdate_ids, ArmyUpdate_ids]
        exact hnodup
      rcases hg with hgA | hgB
      · obtain ⟨g', hg', hgrel⟩ :=
          forall₂_mem (ArmyUpdate_groups bm.ArmyA dt bm.store) g hgA
        have hg'mem : g' ∈ (bm.Update dt).ArmyA.Groups := by
          rw [harm.1]
          exact hg'
        have hlead' : g'.Leader = some lid := by rw [hgrel.1]; exact hlead
        have hm' : m ∈ g'.Members := by rw [hgrel.2]; exact hm
        have hrest := ih (bm.Update dt) g' lid (Or.inl hg'mem) hlead' hdead' hnodup' m hm'
        rw [hrest, htick]
      · obtain ⟨g', hg', hgrel⟩ :=
          forall₂_mem (ArmyUpdate_groups bm.ArmyB dt
            (Army.Update bm.store bm.ArmyA dt).1) g hgB
        have hg'mem : g' ∈ (bm.Update dt).ArmyB.Groups := by
          rw [harm.2]
          exact hg'
        have hlead' : g'.Leader = some lid := by rw [hgrel.1]; exact hlead
        have hm' : m ∈ g'.Members := by rw [hgrel.2]; exact hm
        have hrest := ih (bm.Update dt) g' lid (Or.inr hg'mem) hlead' hdead' hnodup' m hm'
        rw [hrest, htick]

/-- A dead-leader, one-member group for the C10 witness. -/
def c10Group : Group :=
  { ID := 0, Leader := some 0, Members := [1], Formation := circleFormation50,
    ArmyID := 0, targetPosition := ⟨0, 0⟩ }

/-- Store for the C10 witness: unit 0 (the leader) is dead, unit 1 alive. -/
def c10Store : Store :=
  fun i => if i = 0 then { baseUnit with HP := 0, IsAlive := false } else baseUnit

/-- Battle state for the C10 witness. -/
def c10BM : BattleManager :=
  { ArmyA := { ID := 0, Name := "A", Groups := [c10Group], Side := 0 },
    ArmyB := { ID := 1, Name := "B", Groups := [], Side := 1 },
    BattleTime := 0, TimeLimit := 1000, IsActive := true, Winner := -1,
    store := c10Store }

theorem claim_C10_leaderDeathFreeze_witness :
    (c10Group ∈ c10BM.ArmyA.Groups ∨ c10Group ∈ c10BM.ArmyB.Groups) ∧
    c10Group.Leader = some 0 ∧
    (c10BM.store 0).IsAlive = false ∧
    (Army.GetAllUnits c10BM.ArmyA ++ Army.GetAllUnits c10BM.ArmyB).Nodup ∧
    1 ∈ c10Group.Members ∧
    ((runUpdates c10BM [1/10]).store 1).Position = (c10BM.store 1).Position := by
  refine ⟨Or.inl (List.mem_cons_self _ _), rfl, rfl, by decide,
    List.mem_cons_self _ _, ?_⟩
  exact claim_C10_leaderDeathFreeze [1/10] c10BM c10Group 0
    (Or.inl (List.mem_cons_self _ _)) rfl rfl (by decide) 1 (List.mem_cons_self _ _)

/-! ## C1: ordering of the formation write and the AI pass -/

theorem setU_self (s : Store) (i : Nat) (u : Unit) : setU s i u i = u := by
  unfold setU
  rw [if_pos rfl]

theorem Vector2D.distance_comm (v w : Vector2D) :
    Vector2D.Distance v w = Vector2D.Distance w v := by
  unfold Vector2D.Distance
  rw [show (v.X - w.X) * (v.X - w.X) + (v.Y - w.Y) * (v.Y - w.Y) =
    (w.X - v.X) * (w.X - v.X) + (w.Y - v.Y) * (w.Y - v.Y) from by ring]

/-- A unit already standing on its target with no pending cooldown is left
unchanged by `Unit.Update`. -/
theorem UnitUpdate_still (u : Unit) (dt : ℝ) (h1 : ¬ 0 < u.LastAttackTime)
    (h2 : u.Position = u.Target) (h3 : 0 ≤ u.GetCollisionRadius) :
    Unit.Update u dt = u := by
  unfold Unit.Update
  by_cases ha : u.IsAlive = false
  · rw [if_pos ha]
  · rw [if_neg ha]
    simp only []
    rw [if_neg h1]
    split
    · next hgt =>
      exact absurd hgt (by rw [h2, Vector2D.distance_self]; exact not_lt.mpr h3)
    · rfl

/-- The live-leader branch of `Group.Update`, written out as a function. -/
def groupAliveStep (s : Store) (g : Group) (dt : ℝ) (lid : Nat) : Store × Group :=
  let s1 := setU s lid ((s lid).Update dt)
  let leader := s1 lid
  let tp := if leader.Position.Distance leader.Target > 5 then leader.Target
            else leader.Position
  let g1 := { g with targetPosition := tp }
  let s2 := Group.updateFormation s1 g1
  (g1.Members.foldl (fun acc m =>
    if (acc m).IsAlive = true then setU acc m ((acc m).Update dt) else acc) s2, g1)

theorem GroupUpdate_alive (s : Store) (g : Group) (dt : ℝ) (lid : Nat)
    (hl : g.Leader = some lid) (ha : ¬ (s lid).IsAlive = false) :
    Group.Update s g dt = groupAliveStep s g dt lid := by
  unfold Group.Update groupAliveStep
  split
  · next heq => rw [heq] at hl; exact absurd hl (by simp)
  · next lid2 heq =>
    rw [heq] at hl
    injection hl with h
    subst h
    rw [if_neg ha]

theorem updateFormation_alive (s : Store) (g : Group) (lid : Nat)
    (hl : g.Leader = some lid) (ha : ¬ (s lid).IsAlive = false) :
    Group.updateFormation s g = Group.updateCircleFormation s g := by
  unfold Group.updateFormation
  split
  · next heq => rw [heq] at hl; exact absurd hl (by simp)
  · next lid2 heq =>
    rw [heq] at hl
    injection hl with h
    subst h
    rw [if_neg ha]

theorem ArmyUpdate_single (s : Store) (a : Army) (g : Group) (dt : ℝ)
    (hg : a.Groups = [g]) :
    Army.Update s a dt =
      ((Group.Update s g dt).1, { a with Groups := [(Group.Update s g dt).2] }) := by
  unfold Army.Update
  rw [hg]
  rfl

theorem updateAIList_nil (s : Store) (enemies : List Nat) (dt : ℝ) :
    updateAIList s [] enemies dt = s := rfl

theorem updateAIList_cons_skip (s : Store) (i : Nat) (ids enemies : List Nat)
    (dt : ℝ) (h : (s i).AI = none) :
    updateAIList s (i :: ids) enemies dt = updateAIList s ids enemies dt := by
  have key : updateAIList s (i :: ids) enemies dt =
      updateAIList (match (s i).AI with
        | none => s
        | some ai => setU s i (AIBehavior.Update s ai (s i) enemies dt)) ids enemies dt :=
    rfl
  rw [key, h]

theorem updateAIList_cons_app (s : Store) (i : Nat) (ids enemies : List Nat)
    (dt : ℝ) (ai : AIBehavior) (h : (s i).AI = some ai) :
    updateAIList s (i :: ids) enemies dt =
      updateAIList (setU s i (AIBehavior.Update s ai (s i) enemies dt)) ids enemies dt := by
  have key : updateAIList s (i :: ids) enemies dt =
      updateAIList (match (s i).AI with
        | none => s
        | some ai2 => setU s i (AIBehavior.Update s ai2 (s i) enemies dt)) ids enemies dt :=
    rfl
  rw [key, h]

theorem collidePair_noop (s : Store) (i k : Nat)
    (h : (s i).IsCollidingWith (s k) = false) : collidePair s i k = s := by
  unfold collidePair
  rw [h]
  simp

theorem isColliding_false_of_far (u v : Unit)
    (h : u.GetCollisionRadius + v.GetCollisionRadius ≤ u.Position.Distance v.Position) :
    u.IsCollidingWith v = false := by
  unfold Unit.IsCollidingWith
  split
  · rfl
  · simp only [decide_eq_false_iff_not]
    exact not_lt.mpr h

theorem combatScan_far (s : Store) (u : Unit) (acc : Option Nat × ℝ) (e : Nat)
    (h : ¬ u.Position.Distance (s e).Position ≤ u.Range) :
    combatScan s u acc e = acc := by
  unfold combatScan
  rw [if_neg (fun hc => h hc.1)]

theorem findCombatTarget_none (s : Store) (u : Unit) (enemies : List Nat)
    (h : ∀ e ∈ enemies, ¬ u.Position.Distance (s e).Position ≤ u.Range) :
    findCombatTarget s u enemies = none := by
  unfold findCombatTarget
  suffices hh : ∀ (l : List Nat),
      (∀ e ∈ l, ¬ u.Position.Distance (s e).Position ≤ u.Range) →
      ∀ acc : Option Nat × ℝ, l.foldl (combatScan s u) acc = acc by
    rw [hh enemies h]
  intro l
  induction l with
  | nil => intro _ acc; rfl
  | cons e rest ih =>
    intro hl acc
    rw [List.foldl_cons, combatScan_far s u acc e (hl e (List.mem_cons_self e rest))]
    exact ih (fun x hx => hl x (List.mem_cons_of_mem e hx)) acc

theorem combatPass_nil (s : Store) (enemies : List Nat) :
    combatPass s [] enemies = s := rfl

theorem combatPass_cons_noop (s : Store) (i : Nat) (ids enemies : List Nat)
    (h : findCombatTarget s (s i) enemies = none) :
    combatPass s (i :: ids) enemies = combatPass s ids enemies := by
  have key : combatPass s (i :: ids) enemies =
      combatPass (if (s i).CanAttack = false then s
        else match findCombatTarget s (s i) enemies with
             | none => s
             | some t => combatAttack s i t) ids enemies :=
    rfl
  rw [key]
  by_cases hc : (s i).CanAttack = false
  · rw [if_pos hc]
  · rw [if_neg hc, h]

/-- The store at the end of an active tick, phase by phase: army A, army B
(these contain the formation writes), then AI, collisions, combat. -/
theorem BMUpdate_store_phases (bm : BattleManager) (dt : ℝ)
    (hact : ¬ bm.IsActive = false) :
    (bm.Update dt).store =
      processCombat
        (handleCollisions
          (updateAI (Army.Update (Army.Update bm.store bm.ArmyA dt).1 bm.ArmyB dt).1
            (Army.Update bm.store bm.ArmyA dt).2
            (Army.Update (Army.Update bm.store bm.ArmyA dt).1 bm.ArmyB dt).2 dt)
          (Army.Update bm.store bm.ArmyA dt).2
          (Army.Update (Army.Update bm.store bm.ArmyA dt).1 bm.ArmyB dt).2)
        (Army.Update bm.store bm.ArmyA dt).2
        (Army.Update (Army.Update bm.store bm.ArmyA dt).1 bm.ArmyB dt).2 := by
  unfold BattleManager.Update
  rw [if_neg hact, checkWinConditions_store]
  rfl

/-- The C1 leader of army A: no AI pointer, standing on its target. -/
def c1L : Unit :=
  { baseUnit with ID := 0, IsLeader := true, Position := ⟨50, 250⟩, Target := ⟨50, 250⟩ }

/-- The C1 member: fresh infantry AI whose decision fires on the next tick. -/
def c1M : Unit :=
  { baseUnit with
    ID := 1, Position := ⟨100, 250⟩, Target := ⟨100, 250⟩,
    AI := some (NewAIBehavior "infantry") }

/-- The C1 enemy leader of army B, far away but within sight. -/
def c1E : Unit :=
  { baseUnit with
    ID := 2, ArmyID := 1, IsLeader := true,
    Position := ⟨900, 250⟩, Target := ⟨900, 250⟩ }

/-- Initial store of the C1 counterexample. -/
def c1s : Store := fun i => if i = 0 then c1L else if i = 1 then c1M else c1E

def c1gA : Group :=
  { ID := 0, Leader := some 0, Members := [1], Formation := circleFormation50,
    ArmyID := 0, targetPosition := ⟨0, 0⟩ }

def c1gB : Group :=
  { ID := 1, Leader := some 2, Members := [], Formation := circleFormation50,
    ArmyID := 1, targetPosition := ⟨0, 0⟩ }

def c1BM : BattleManager :=
  { ArmyA := { ID := 0, Name := "A", Groups := [c1gA], Side := 0 },
    ArmyB := { ID := 1, Name := "B", Groups := [c1gB], Side := 1 },
    BattleTime := 0, TimeLimit := 1000, IsActive := true, Winner := -1,
    store := c1s }

/-- The member as rewritten by the formation write: target = formation slot. -/
def c1M1 : Unit := { c1M with Target := ⟨100, 250⟩ }

def c1gA1 : Group := { c1gA with targetPosition := ⟨50, 250⟩ }

def c1gB1 : Group := { c1gB with targetPosition := ⟨900, 250⟩ }

def c1aA1 : Army := { ID := 0, Name := "A", Groups := [c1gA1], Side := 0 }

def c1aB1 : Army := { ID := 1, Name := "B", Groups := [c1gB1], Side := 1 }

/-- Store after the army-A phase of the C1 tick. -/
def c1sA : Store := setU (setU (setU c1s 0 c1L) 1 c1M1) 1 c1M1

/-- Store after the army-B phase of the C1 tick. -/
def c1sB : Store := setU c1sA 2 c1E

theorem c1_LAlive : ¬ (c1s 0).IsAlive = false := by simp [c1s, c1L, baseUnit]

theorem c1_Lstill : Unit.Update c1L (1/10) = c1L :=
  UnitUpdate_still c1L (1/10) (by norm_num [c1L, baseUnit]) rfl
    (by norm_num [Unit.GetCollisionRadius, c1L, baseUnit])

theorem c1_Mstill : Unit.Update c1M1 (1/10) = c1M1 :=
  UnitUpdate_still c1M1 (1/10) (by norm_num [c1M1, c1M, baseUnit]) rfl
    (by norm_num [Unit.GetCollisionRadius, c1M1, c1M, baseUnit])

theorem c1_Estill : Unit.Update c1E (1/10) = c1E :=
  UnitUpdate_still c1E (1/10) (by norm_num [c1E, baseUnit]) rfl
    (by norm_num [Unit.GetCollisionRadius, c1E, baseUnit])

/-- The formation write of the C1 tick: the sole alive member is sent to the
slot at angle 0, which is `⟨100, 250⟩`. -/
theorem c1_circle_eval :
    Group.updateCircleFormation (setU c1s 0 c1L) c1gA1 =
      setU (setU c1s 0 c1L) 1 c1M1 := by
  unfold Group.updateCircleFormation
  simp only []
  rw [show Group.getAliveMembers (setU c1s 0 c1L) c1gA1 = [1] from rfl]
  rw [if_neg (by simp : ¬ (([1] : List Nat) = []))]
  rw [show ([1] : List Nat).enum = [((0 : Nat), (1 : Nat))] from rfl]
  rw [List.foldl_cons]
  simp only []
  rw [show setU c1s 0 c1L 1 = c1M from rfl]
  rw [if_neg (by simp [c1M, baseUnit] : ¬ (c1M.IsRetreating = true))]
  rw [List.foldl_nil]
  norm_num [Unit.MoveTo, Vector2D.Add, c1M1, c1gA1, c1gA, circleFormation50,
    Real.cos_zero, Real.sin_zero]

/-- Army A during the C1 tick: the leader stands still and the member is
written onto its formation slot. -/
theorem c1_groupA_eval : Group.Update c1s c1gA (1/10) = (c1sA, c1gA1) := by
  rw [GroupUpdate_alive c1s c1gA (1/10) 0 rfl c1_LAlive]
  unfold groupAliveStep
  simp only []
  rw [show c1s 0 = c1L from rfl, c1_Lstill]
  rw [show setU c1s 0 c1L 0 = c1L from setU_self c1s 0 c1L]
  rw [show Vector2D.Distance c1L.Position c1L.Target = 0 from by
    rw [show c1L.Position = c1L.Target from rfl]; exact Vector2D.distance_self _]
  rw [if_neg (by norm_num : ¬ (0 : ℝ) > 5)]
  rw [show c1L.Position = (⟨50, 250⟩ : Vector2D) from rfl]
  rw [show ({ c1gA with targetPosition := (⟨50, 250⟩ : Vector2D) } : Group) = c1gA1
    from rfl]
  rw [updateFormation_alive (setU c1s 0 c1L) c1gA1 0 rfl
    (by rw [setU_self]; simp [c1L, baseUnit])]
  rw [c1_circle_eval]
  rw [show c1gA.Members = [1] from rfl]
  rw [List.foldl_cons, List.foldl_nil]
  show ((if (setU (setU c1s 0 c1L) 1 c1M1 1).IsAlive = true
      then setU (setU (setU c1s 0 c1L) 1 c1M1) 1
        ((setU (setU c1s 0 c1L) 1 c1M1 1).Update (1/10))
      else setU (setU c1s 0 c1L) 1 c1M1), c1gA1) = (c1sA, c1gA1)
  rw [show setU (setU c1s 0 c1L) 1 c1M1 1 = c1M1 from setU_self _ 1 c1M1]
  rw [if_pos (by simp [c1M1, c1M, baseUnit] : c1M1.IsAlive = true)]
  rw [c1_Mstill]
  rfl

theorem c1_armyA_eval : Army.Update c1s c1BM.ArmyA (1/10) = (c1sA, c1aA1) := by
  rw [ArmyUpdate_single c1s c1BM.ArmyA c1gA (1/10) rfl]
  rw [c1_groupA_eval]
  rfl

/-- Army B during the C1 tick: its lone leader stands still. -/
theorem c1_groupB_eval : Group.Update c1sA c1gB (1/10) = (c1sB, c1gB1) := by
  rw [GroupUpdate_alive c1sA c1gB (1/10) 2 rfl
    (by rw [show c1sA 2 = c1E from rfl]; simp [c1E, baseUnit])]
  unfold groupAliveStep
  simp only []
  rw [show c1sA 2 = c1E from rfl, c1_Estill]
  rw [show setU c1sA 2 c1E 2 = c1E from setU_self _ 2 c1E]
  rw [show Vector2D.Distance c1E.Position c1E.Target = 0 from by
    rw [show c1E.Position = c1E.Target from rfl]; exact Vector2D.distance_self _]
  rw [if_neg (by norm_num : ¬ (0 : ℝ) > 5)]
  rw [show c1E.Position = (⟨900, 250⟩ : Vector2D) from rfl]
  rw [show ({ c1gB with targetPosition := (⟨900, 250⟩ : Vector2D) } : Group) = c1gB1
    from rfl]
  rw [updateFormation_alive (setU c1sA 2 c1E) c1gB1 2 rfl
    (by rw [setU_self]; simp [c1E, baseUnit])]
  rw [show Group.updateCircleFormation (setU c1sA 2 c1E) c1gB1 = setU c1sA 2 c1E from by
    unfold Group.updateCircleFormation
    simp only []
    rw [show Group.getAliveMembers (setU c1sA 2 c1E) c1gB1 = [] from rfl]
    rw [if_pos rfl]]
  rw [show c1gB.Members = ([] : List Nat) from rfl]
  rw [List.foldl_nil]
  rfl

theorem c1_armyB_eval : Army.Update c1sA c1BM.ArmyB (1/10) = (c1sB, c1aB1) := by
  rw [ArmyUpdate_single c1sA c1BM.ArmyB c1gB (1/10) rfl]
  rw [c1_groupB_eval]
  rfl

theorem c1_dist_ME : Vector2D.Distance c1M1.Position (c1sB 2).Position = 800 := by
  show Vector2D.Distance ⟨100, 250⟩ ⟨900, 250⟩ = 800
  rw [Vector2D.distance_same_y 100 900 250 (by norm_num)]
  norm_num

/-- The member's AI picks the enemy leader (the only candidate in sight). -/
theorem c1_sel : selectTarget c1sB c1M1 [2] = some 2 := by
  have hscore : calculateTargetScore c1M1 (c1sB 2) 800 > -1 := by
    rw [show c1sB 2 = c1E from rfl]
    unfold calculateTargetScore
    simp only []
    rw [if_pos (show c1E.IsLeader = true from rfl)]
    rw [if_neg (by norm_num [c1M1, c1M, baseUnit] : ¬ (800 : ℝ) ≤ c1M1.Range)]
    rw [if_neg (by decide : ¬ (c1E.type = "mage"))]
    rw [if_neg (by decide : ¬ (c1E.type = "archer"))]
    rw [if_pos (by decide : c1E.type = "infantry")]
    norm_num [Unit.GetHealthPercentage, c1E, baseUnit]
  unfold selectTarget
  rw [selectTargetLoop]
  rw [if_neg (by rw [show c1sB 2 = c1E from rfl]; simp [c1E, baseUnit])]
  simp only []
  rw [c1_dist_ME]
  rw [if_neg (by norm_num [Unit.GetSightRange] : ¬ (800 : ℝ) > c1M1.GetSightRange)]
  rw [if_pos hscore]
  rw [selectTargetLoop]

/-- The member's AI state after target selection. -/
def c1ai2 : AIBehavior := { NewAIBehavior "infantry" with TargetEnemy := some 2 }

/-- The member's AI state after the action decision. -/
def c1aiF : AIBehavior := { c1ai2 with CurrentAction := .Approach }

/-- The member at the end of the C1 tick: its AI overwrote the formation slot
with an approach step of 50 towards the enemy. -/
def c1Mf : Unit := { c1M with Target := ⟨150, 250⟩, AI := some c1aiF }

theorem c1_decideG (ai : AIBehavior) (hp : ai.PreferredRange = 15) :
    decideAction ai c1M1 (c1sB 2) 800 = AIAction.Approach := by
  unfold decideAction
  simp only []
  rw [if_neg (by
    intro hc
    have hd := hc.1
    rw [show c1sB 2 = c1E from rfl] at hd
    norm_num [Unit.GetCollisionRadius, c1M1, c1M, c1E, baseUnit] at hd)]
  rw [if_pos (by
    rw [show c1sB 2 = c1E from rfl, hp]
    norm_num [Unit.GetCollisionRadius, c1M1, c1M, c1E, baseUnit])]

theorem c1_execG (ai : AIBehavior) (hte : ai.TargetEnemy = some 2)
    (hca : ai.CurrentAction = AIAction.Approach) (hp : ai.PreferredRange = 15) :
    executeAction c1sB ai { c1M1 with AI := some ai } =
      { c1M1 with AI := some ai, Target := ⟨150, 250⟩ } := by
  unfold executeAction
  rw [hca]
  simp only [moveTowardsTarget]
  rw [hte]
  simp only []
  rw [show c1sB 2 = c1E from rfl]
  rw [if_pos (by
    rw [show Vector2D.Distance ({ c1M1 with AI := some ai } : Unit).Position
        c1E.Position = 800 from c1_dist_ME]
    rw [hp]
    norm_num [Unit.GetCollisionRadius, c1M1, c1M, c1E, baseUnit])]
  rw [show Vector2D.Sub c1E.Position ({ c1M1 with AI := some ai } : Unit).Position
      = (⟨800, 0⟩ : Vector2D) from by
    show Vector2D.Sub ⟨900, 250⟩ ⟨100, 250⟩ = _
    norm_num [Vector2D.Sub]]
  rw [Vector2D.normalize_xaxis 800 (by norm_num)]
  rw [show Vector2D.Distance ({ c1M1 with AI := some ai } : Unit).Position
      c1E.Position = 800 from c1_dist_ME]
  rw [hp]
  rw [show ({ c1M1 with AI := some ai } : Unit).GetCollisionRadius = 3 from by
    norm_num [Unit.GetCollisionRadius, c1M1, c1M, baseUnit]]
  rw [show c1E.GetCollisionRadius = 3 from by
    norm_num [Unit.GetCollisionRadius, c1E, baseUnit]]
  rw [show min ((800 : ℝ) - (15 * (9/10) + (3 + 3))) 50 = 50 from by
    rw [min_eq_right]
    norm_num]
  show ({ c1M1 with AI := some ai } : Unit).MoveTo
      (({ c1M1 with AI := some ai } : Unit).Position.Add
        (Vector2D.Mul ⟨1, 0⟩ (50 * 1))) =
    { c1M1 with AI := some ai, Target := ⟨150, 250⟩ }
  unfold Unit.MoveTo Vector2D.Add Vector2D.Mul
  norm_num [c1M1, c1M, baseUnit]

/-- The member's AI decision cycle during the C1 tick, end to end. -/
theorem c1_aiu :
    AIBehavior.Update c1sB (NewAIBehavior "infantry") c1M1 [2] (1/10) = c1Mf := by
  unfold AIBehavior.Update
  rw [if_neg (by simp [c1M1, c1M, baseUnit])]
  simp only []
  rw [if_neg (by
    rw [show (NewAIBehavior "infantry").LastDecisionTime = 0 from rfl,
        show (NewAIBehavior "infantry").DecisionCooldown = 1/10 from rfl]
    norm_num)]
  rw [c1_sel]
  simp only []
  rw [if_neg (by rw [show c1sB 2 = c1E from rfl]; simp [c1E, baseUnit])]
  rw [c1_dist_ME]
  rw [c1_decideG _ (by rfl)]
  rw [c1_execG _ (by rfl) (by rfl) (by rfl)]
  rfl

/-- Store after the AI pass of the C1 tick. -/
def c1sAI : Store := setU c1sB 1 c1Mf

theorem c1_ai_eval : updateAI c1sB c1aA1 c1aB1 (1/10) = c1sAI := by
  unfold updateAI
  simp only []
  rw [show Army.GetAliveUnits c1sB c1aA1 = [0, 1] from rfl]
  rw [show Army.GetAliveUnits c1sB c1aB1 = [2] from rfl]
  rw [updateAIList_cons_skip c1sB 0 [1] [2] (1/10) rfl]
  rw [updateAIList_cons_app c1sB 1 [] [2] (1/10) (NewAIBehavior "infantry") rfl]
  rw [show c1sB 1 = c1M1 from rfl]
  rw [c1_aiu]
  rw [updateAIList_nil]
  rw [updateAIList_cons_skip (setU c1sB 1 c1Mf) 2 [] [0, 1] (1/10) rfl]
  rw [updateAIList_nil]
  rfl

theorem collideFold_cons (s : Store) (i k : Nat) (ps : List (Nat × Nat)) :
    (((i, k) :: ps).foldl (fun acc q => collidePair acc q.1 q.2) s) =
      (ps.foldl (fun acc q => collidePair acc q.1 q.2) (collidePair s i k)) := rfl

/-- No pair of units overlaps during the C1 tick, so the collision phase is a
no-op. -/
theorem c1_coll_eval : handleCollisions c1sAI c1aA1 c1aB1 = c1sAI := by
  have h01 : (c1sAI 0).IsCollidingWith (c1sAI 1) = false :=
    isColliding_false_of_far c1L c1Mf (by
      rw [show c1L.Position = (⟨50, 250⟩ : Vector2D) from rfl,
          show c1Mf.Position = (⟨100, 250⟩ : Vector2D) from rfl,
          Vector2D.distance_same_y 50 100 250 (by norm_num)]
      norm_num [Unit.GetCollisionRadius, c1L, c1Mf, c1M, baseUnit])
  have h02 : (c1sAI 0).IsCollidingWith (c1sAI 2) = false :=
    isColliding_false_of_far c1L c1E (by
      rw [show c1L.Position = (⟨50, 250⟩ : Vector2D) from rfl,
          show c1E.Position = (⟨900, 250⟩ : Vector2D) from rfl,
          Vector2D.distance_same_y 50 900 250 (by norm_num)]
      norm_num [Unit.GetCollisionRadius, c1L, c1E, baseUnit])
  have h12 : (c1sAI 1).IsCollidingWith (c1sAI 2) = false :=
    isColliding_false_of_far c1Mf c1E (by
      rw [show c1Mf.Position = (⟨100, 250⟩ : Vector2D) from rfl,
          show c1E.Position = (⟨900, 250⟩ : Vector2D) from rfl,
          Vector2D.distance_same_y 100 900 250 (by norm_num)]
      norm_num [Unit.GetCollisionRadius, c1Mf, c1M, c1E, baseUnit])
  unfold handleCollisions
  simp only []
  rw [show Army.GetAliveUnits c1sAI c1aA1 = [0, 1] from rfl]
  rw [show Army.GetAliveUnits c1sAI c1aB1 = [2] from rfl]
  rw [show pairsAux ([0, 1] ++ [2] : List Nat) = [(0, 1), (0, 2), (1, 2)] from rfl]
  rw [collideFold_cons, collidePair_noop c1sAI 0 1 h01]
  rw [collideFold_cons, collidePair_noop c1sAI 0 2 h02]
  rw [collideFold_cons, collidePair_noop c1sAI 1 2 h12]
  rw [List.foldl_nil]

/-- Every unit is out of attack range of every enemy during the C1 tick, so
the combat phase is a no-op. -/
theorem c1_combat_eval : processCombat c1sAI c1aA1 c1aB1 = c1sAI := by
  have hf0 : findCombatTarget c1sAI (c1sAI 0) [2] = none := by
    refine findCombatTarget_none _ _ _ ?_
    intro e he
    rw [List.mem_singleton] at he
    subst he
    show ¬ Vector2D.Distance (⟨50, 250⟩ : Vector2D) (⟨900, 250⟩ : Vector2D) ≤ c1L.Range
    rw [Vector2D.distance_same_y 50 900 250 (by norm_num)]
    norm_num [c1L, baseUnit]
  have hf1 : findCombatTarget c1sAI (c1sAI 1) [2] = none := by
    refine findCombatTarget_none _ _ _ ?_
    intro e he
    rw [List.mem_singleton] at he
    subst he
    show ¬ Vector2D.Distance (⟨100, 250⟩ : Vector2D) (⟨900, 250⟩ : Vector2D) ≤ c1Mf.Range
    rw [Vector2D.distance_same_y 100 900 250 (by norm_num)]
    norm_num [c1Mf, c1M, baseUnit]
  have hf2 : findCombatTarget c1sAI (c1sAI 2) [0, 1] = none := by
    refine findCombatTarget_none _ _ _ ?_
    intro e he
    rcases List.mem_cons.mp he with rfl | he2
    · show ¬ Vector2D.Distance (⟨900, 250⟩ : Vector2D) (⟨50, 250⟩ : Vector2D) ≤ c1E.Range
      rw [Vector2D.distance_comm, Vector2D.distance_same_y 50 900 250 (by norm_num)]
      norm_num [c1E, baseUnit]
    · rw [List.mem_singleton] at he2
      subst he2
      show ¬ Vector2D.Distance (⟨900, 250⟩ : Vector2D) (⟨100, 250⟩ : Vector2D) ≤ c1E.Range
      rw [Vector2D.distance_comm, Vector2D.distance_same_y 100 900 250 (by norm_num)]
      norm_num [c1E, baseUnit]
  unfold processCombat
  simp only []
  rw [show Army.GetAliveUnits c1sAI c1aA1 = [0, 1] from rfl]
  rw [show Army.GetAliveUnits c1sAI c1aB1 = [2] from rfl]
  rw [combatPass_cons_noop c1sAI 0 [1] [2] hf0]
  rw [combatPass_cons_noop c1sAI 1 [] [2] hf1]
  rw [combatPass_nil]
  rw [combatPass_cons_noop c1sAI 2 [] [0, 1] hf2]
  rw [combatPass_nil]

/-- The C1 tick, end to end. -/
theorem c1_update_store : (c1BM.Update (1/10)).store = c1sAI := by
  rw [BMUpdate_store_phases c1BM (1/10) (by simp [c1BM])]
  rw [show c1BM.store = c1s from rfl]
  rw [c1_armyA_eval]
  simp only []
  rw [c1_armyB_eval]
  simp only []
  rw [c1_ai_eval, c1_coll_eval, c1_combat_eval]

/-- C1 counterexample: an active tick in which the group leader stays alive,
the sole member stays alive and non-retreating, the member's circular-formation
slot (anchor plus radius at the index-0 angle) is `⟨100, 250⟩`, and yet the
member ends `BattleManager.Update` with movement target `⟨150, 250⟩`: the AI
pass runs after the formation write and overrides the slot. -/
theorem claim_C1_cex :
    c1BM.IsActive = true ∧
    (c1BM.store 0).IsAlive = true ∧
    ((c1BM.Update (1/10)).store 0).IsAlive = true ∧
    ((c1BM.Update (1/10)).store 1).IsAlive = true ∧
    ((c1BM.Update (1/10)).store 1).IsRetreating = false ∧
    (c1BM.Update (1/10)).ArmyA.Groups = [c1gA1] ∧
    c1gA1.targetPosition.Add
      ⟨Real.cos 0 * c1gA1.Formation.Radius, Real.sin 0 * c1gA1.Formation.Radius⟩ =
      ⟨100, 250⟩ ∧
    ((c1BM.Update (1/10)).store 1).Target = ⟨150, 250⟩ ∧
    (⟨150, 250⟩ : Vector2D) ≠ (⟨100, 250⟩ : Vector2D) := by
  refine ⟨rfl, rfl, ?_, ?_, ?_, ?_, ?_, ?_, ?_⟩
  · rw [c1_update_store]
    rfl
  · rw [c1_update_store]
    rfl
  · rw [c1_update_store]
    rfl
  · have h := (BMUpdate_armies c1BM (1/10) (by simp [c1BM])).1
    rw [show c1BM.store = c1s from rfl, c1_armyA_eval] at h
    rw [h]
    rfl
  · show Vector2D.Add ⟨50, 250⟩ ⟨Real.cos 0 * 50, Real.sin 0 * 50⟩ = (⟨100, 250⟩ : Vector2D)
    norm_num [Vector2D.Add, Real.cos_zero, Real.sin_zero]
  · rw [c1_update_store]
    rfl
  · intro h
    have hx := congrArg Vector2D.X h
    norm_num at hx

/-- C1 (amended): within an active tick the army phase — which contains the
circular-formation writes to member `Target`s — runs BEFORE the AI pass, and
the collision, combat and win-check phases never write any unit's movement
`Target`.  So at the end of `BattleManager.Update` every unit's `Target` is
exactly what the AI pass left: the AI's own movement target on ticks where the
unit's AI executed an action, and the formation slot otherwise. -/
theorem claim_C1_targetPipeline (bm : BattleManager) (dt : ℝ) (j : Nat)
    (hact : ¬ bm.IsActive = false) :
    ((bm.Update dt).store j).Target =
      (updateAI (Army.Update (Army.Update bm.store bm.ArmyA dt).1 bm.ArmyB dt).1
        (Army.Update bm.store bm.ArmyA dt).2
        (Army.Update (Army.Update bm.store bm.ArmyA dt).1 bm.ArmyB dt).2 dt j).Target := by
  rw [BMUpdate_store_phases bm dt hact]
  rw [(processCombat_fields _ _ _ j).2.2.1]
  rw [(handleCollisions_fields _ _ _ j).2.1]

theorem claim_C1_targetPipeline_witness :
    (¬ c1BM.IsActive = false) ∧
    ((c1BM.Update (1/10)).store 1).Target =
      (updateAI
        (Army.Update (Army.Update c1BM.store c1BM.ArmyA (1/10)).1 c1BM.ArmyB (1/10)).1
        (Army.Update c1BM.store c1BM.ArmyA (1/10)).2
        (Army.Update (Army.Update c1BM.store c1BM.ArmyA (1/10)).1 c1BM.ArmyB (1/10)).2
        (1/10) 1).Target :=
  ⟨by simp [c1BM], claim_C1_targetPipeline c1BM (1/10) 1 (by simp [c1BM])⟩

end

end Tinygocha
